import Mathlib

/-!
Verification development for the geodesic-dome geometry application.

The application builds a hemispherical triangulated mesh from one of two
construction strategies, derives per-facet geometry (centroid, outward
normal, visibility), assigns deterministic logical face numbers, and stores
per-facet text notes.

Modelling conventions used throughout this file:

* JavaScript floating-point numbers are modelled by exact real-number
  semantics.  Every coordinate produced by the second construction strategy
  lies in the field K = ℚ(√5, s) where s = √((5+√5)/2), so coordinates are
  represented exactly by the computable structure `GK` below (a pair of
  `QR5` elements, themselves pairs of rationals).  The map `GK.toReal`
  interprets a representation as the real number it denotes, and every
  Boolean comparison procedure used by the executable definitions is proved
  correct against that interpretation.
* `THREE.Vector3.normalize`, which divides a vector by its Euclidean length
  (or by 1 when the length is zero), is modelled by `vnormalize`, which
  obtains the length through the verified partial square root `GK.sqrtB`;
  `GK.sqrtB_sound_gk` shows any produced root is the nonnegative square root.
* JavaScript `undefined`/`NaN` values (which arise in the source when a
  buffer attribute is read out of range) are modelled by `Option GK` with
  `none` propagating through arithmetic and making every comparison false,
  exactly as NaN does.
-/

attribute [local semireducible] Rat.add Rat.mul Rat.inv Rat.sub

/-- Elements of ℚ(√5), represented as `a + b·√5` with `a b : ℚ`. -/
@[ext] structure QR5 where
  a : ℚ
  b : ℚ
deriving DecidableEq, Repr

namespace QR5

def ofRat (q : ℚ) : QR5 := ⟨q, 0⟩

instance : Zero QR5 := ⟨⟨0, 0⟩⟩
instance : One QR5 := ⟨⟨1, 0⟩⟩
instance : Add QR5 := ⟨fun x y => ⟨x.a + y.a, x.b + y.b⟩⟩
instance : Neg QR5 := ⟨fun x => ⟨-x.a, -x.b⟩⟩
instance : Sub QR5 := ⟨fun x y => ⟨x.a - y.a, x.b - y.b⟩⟩
instance : Mul QR5 := ⟨fun x y => ⟨x.a * y.a + 5 * (x.b * y.b), x.a * y.b + x.b * y.a⟩⟩

@[simp] theorem zero_a : (0 : QR5).a = 0 := rfl
@[simp] theorem zero_b : (0 : QR5).b = 0 := rfl
@[simp] theorem one_a : (1 : QR5).a = 1 := rfl
@[simp] theorem one_b : (1 : QR5).b = 0 := rfl
@[simp] theorem add_a (x y : QR5) : (x + y).a = x.a + y.a := rfl
@[simp] theorem add_b (x y : QR5) : (x + y).b = x.b + y.b := rfl
@[simp] theorem neg_a (x : QR5) : (-x).a = -x.a := rfl
@[simp] theorem neg_b (x : QR5) : (-x).b = -x.b := rfl
@[simp] theorem sub_a (x y : QR5) : (x - y).a = x.a - y.a := rfl
@[simp] theorem sub_b (x y : QR5) : (x - y).b = x.b - y.b := rfl
@[simp] theorem mul_a (x y : QR5) : (x * y).a = x.a * y.a + 5 * (x.b * y.b) := rfl
@[simp] theorem mul_b (x y : QR5) : (x * y).b = x.a * y.b + x.b * y.a := rfl
@[simp] theorem ofRat_a (q : ℚ) : (ofRat q).a = q := rfl
@[simp] theorem ofRat_b (q : ℚ) : (ofRat q).b = 0 := rfl

instance : CommRing QR5 where
  add_assoc x y z := by ext <;> simp <;> ring
  zero_add x := by ext <;> simp
  add_zero x := by ext <;> simp
  add_comm x y := by ext <;> simp <;> ring
  mul_assoc x y z := by ext <;> simp <;> ring
  one_mul x := by ext <;> simp
  mul_one x := by ext <;> simp
  left_distrib x y z := by ext <;> simp <;> ring
  right_distrib x y z := by ext <;> simp <;> ring
  zero_mul x := by ext <;> simp
  mul_zero x := by ext <;> simp
  mul_comm x y := by ext <;> simp <;> ring
  neg_add_cancel x := by ext <;> simp
  sub_eq_add_neg x y := by ext <;> simp <;> ring
  nsmul := nsmulRec
  zsmul := zsmulRec

/-- Interpretation of a representation as the real number it denotes. -/
noncomputable def toReal (x : QR5) : ℝ := (x.a : ℝ) + (x.b : ℝ) * Real.sqrt 5

theorem sqrt5_pos : (0 : ℝ) < Real.sqrt 5 := Real.sqrt_pos.mpr (by norm_num)

theorem sqrt5_sq : Real.sqrt 5 * Real.sqrt 5 = 5 := Real.mul_self_sqrt (by norm_num)

theorem irrational_sqrt5 : Irrational (Real.sqrt 5) := by
  simpa using (by norm_num : Nat.Prime 5).irrational_sqrt

theorem no_rat_sqrt5 (v : ℚ) (hv : v ^ 2 = 5) : False := by
  apply irrational_sqrt5
  refine ⟨|v|, ?_⟩
  have hvR : ((v : ℝ)) ^ 2 = 5 := by exact_mod_cast hv
  have hs : Real.sqrt ((|(v : ℝ)|) ^ 2) = |(v : ℝ)| := Real.sqrt_sq (abs_nonneg _)
  rw [sq_abs, hvR] at hs
  rw [hs]
  push_cast
  rfl

@[simp] theorem toReal_zero : (0 : QR5).toReal = 0 := by simp [toReal]

@[simp] theorem toReal_one : (1 : QR5).toReal = 1 := by simp [toReal]

@[simp] theorem toReal_add (x y : QR5) : (x + y).toReal = x.toReal + y.toReal := by
  simp [toReal]; ring

@[simp] theorem toReal_neg (x : QR5) : (-x).toReal = -x.toReal := by
  simp [toReal]; ring

@[simp] theorem toReal_sub (x y : QR5) : (x - y).toReal = x.toReal - y.toReal := by
  simp [toReal]; ring

@[simp] theorem toReal_mul (x y : QR5) : (x * y).toReal = x.toReal * y.toReal := by
  simp only [toReal, mul_a, mul_b]
  push_cast
  linear_combination (-(x.b : ℝ) * (y.b : ℝ)) * sqrt5_sq

@[simp] theorem toReal_ofRat (q : ℚ) : (ofRat q).toReal = (q : ℝ) := by simp [toReal]

theorem toReal_eq_zero (x : QR5) (h : x.toReal = 0) : x = 0 := by
  by_cases hb : x.b = 0
  · have : (x.a : ℝ) = 0 := by simpa [toReal, hb] using h
    ext <;> simp [hb]
    exact_mod_cast this
  · exfalso
    apply irrational_sqrt5
    refine ⟨-x.a / x.b, ?_⟩
    have hbR : (x.b : ℝ) ≠ 0 := by exact_mod_cast hb
    push_cast
    field_simp
    have : (x.a : ℝ) + (x.b : ℝ) * Real.sqrt 5 = 0 := h
    linarith [this]

theorem toReal_inj {x y : QR5} (h : x.toReal = y.toReal) : x = y := by
  have : (x - y).toReal = 0 := by simp [h]
  have := toReal_eq_zero _ this
  have hx : x - y + y = x := by ring
  rw [this] at hx
  simpa using hx.symm

/-- Boolean decision procedure for strict positivity of the denoted real. -/
def posB (x : QR5) : Bool :=
  if 0 ≤ x.a then
    if 0 ≤ x.b then decide (x.a ≠ 0 ∨ x.b ≠ 0)
    else decide (5 * x.b ^ 2 < x.a ^ 2)
  else
    if 0 ≤ x.b then decide (x.a ^ 2 < 5 * x.b ^ 2)
    else false

theorem posB_iff (x : QR5) : x.posB = true ↔ 0 < x.toReal := by
  have h5 := sqrt5_pos
  have hsq := sqrt5_sq
  unfold posB toReal
  split_ifs with ha hb hb
  · simp only [decide_eq_true_eq]
    have haR : (0:ℝ) ≤ (x.a : ℝ) := by exact_mod_cast ha
    have hbR : (0:ℝ) ≤ (x.b : ℝ) := by exact_mod_cast hb
    constructor
    · rintro (h | h)
      · have haa : (0 : ℝ) < x.a := by
          have := lt_of_le_of_ne ha (Ne.symm h)
          exact_mod_cast this
        nlinarith [mul_nonneg hbR h5.le]
      · have hbb : (0 : ℝ) < x.b := by
          have := lt_of_le_of_ne hb (Ne.symm h)
          exact_mod_cast this
        nlinarith [mul_pos hbb h5]
    · intro hlt
      by_contra hc
      push_neg at hc
      obtain ⟨h1, h2⟩ := hc
      rw [h1, h2] at hlt
      simp at hlt
  · simp only [decide_eq_true_eq]
    have haR : (0:ℝ) ≤ (x.a : ℝ) := by exact_mod_cast ha
    have hbR : (x.b : ℝ) < 0 := by exact_mod_cast (not_le.mp hb)
    have hmb : (0:ℝ) < (-(x.b : ℝ)) * Real.sqrt 5 := mul_pos (by linarith) h5
    constructor
    · intro h
      have hR : 5 * (x.b : ℝ) ^ 2 < (x.a : ℝ) ^ 2 := by exact_mod_cast h
      by_contra hc
      push_neg at hc
      have h1 : (0:ℝ) ≤ -(x.b : ℝ) * Real.sqrt 5 - (x.a : ℝ) := by linarith
      have h2 : (0:ℝ) ≤ -(x.b : ℝ) * Real.sqrt 5 + (x.a : ℝ) := by linarith
      nlinarith [mul_nonneg h1 h2, hsq]
    · intro h
      have h1 : (0:ℝ) < (x.a : ℝ) + (x.b : ℝ) * Real.sqrt 5 := h
      have h2 : (0:ℝ) < (x.a : ℝ) - (x.b : ℝ) * Real.sqrt 5 := by linarith
      have key : 5 * (x.b : ℝ) ^ 2 < (x.a : ℝ) ^ 2 := by
        nlinarith [mul_pos h1 h2, hsq]
      exact_mod_cast key
  · simp only [decide_eq_true_eq]
    have haR : (x.a : ℝ) < 0 := by exact_mod_cast (not_le.mp ha)
    have hbR : (0:ℝ) ≤ (x.b : ℝ) := by exact_mod_cast hb
    have hb5 : (0:ℝ) ≤ (x.b : ℝ) * Real.sqrt 5 := mul_nonneg hbR h5.le
    constructor
    · intro h
      have hR : (x.a : ℝ) ^ 2 < 5 * (x.b : ℝ) ^ 2 := by exact_mod_cast h
      by_contra hc
      push_neg at hc
      have h1 : (0:ℝ) ≤ -((x.a : ℝ) + (x.b : ℝ) * Real.sqrt 5) := by linarith
      have h2 : (0:ℝ) ≤ (x.b : ℝ) * Real.sqrt 5 - (x.a : ℝ) := by linarith
      nlinarith [mul_nonneg h1 h2, hsq]
    · intro h
      have h2 : (0:ℝ) < (x.b : ℝ) * Real.sqrt 5 - (x.a : ℝ) := by linarith
      have key : (x.a : ℝ) ^ 2 < 5 * (x.b : ℝ) ^ 2 := by
        nlinarith [mul_pos h h2, hsq]
      exact_mod_cast key
  · have haR : (x.a : ℝ) < 0 := by exact_mod_cast (not_le.mp ha)
    have hbR : (x.b : ℝ) < 0 := by exact_mod_cast (not_le.mp hb)
    simp only [false_iff, not_lt]
    nlinarith [mul_pos (neg_pos.mpr hbR) h5]

/-- Strict order on denoted reals, decided exactly. -/
def ltB (x y : QR5) : Bool := (y - x).posB

/-- Nonstrict order on denoted reals, decided exactly. -/
def leB (x y : QR5) : Bool := !(x - y).posB

theorem ltB_iff (x y : QR5) : ltB x y = true ↔ x.toReal < y.toReal := by
  unfold ltB
  rw [posB_iff]
  simp [sub_pos]

theorem leB_iff (x y : QR5) : leB x y = true ↔ x.toReal ≤ y.toReal := by
  unfold leB
  rw [Bool.not_eq_true', ← Bool.not_eq_true, posB_iff]
  simp [sub_pos, not_lt]

/-- Exact inverse; sends 0 to 0 like the junk value of field division. -/
def inv (x : QR5) : QR5 :=
  let d : ℚ := x.a ^ 2 - 5 * x.b ^ 2
  ⟨x.a / d, -x.b / d⟩

theorem toReal_ne_zero (x : QR5) (h : x ≠ 0) : x.toReal ≠ 0 :=
  fun hc => h (toReal_eq_zero x hc)

theorem norm_ne_zero (x : QR5) (h : x ≠ 0) : x.a ^ 2 - 5 * x.b ^ 2 ≠ 0 := by
  intro hc
  by_cases hb : x.b = 0
  · have ha : x.a = 0 := by
      have : x.a ^ 2 = 0 := by rw [hb] at hc; linarith [hc]
      exact pow_eq_zero_iff (n := 2) (by norm_num) |>.mp this
    exact h (by ext <;> simp [ha, hb])
  · apply irrational_sqrt5
    refine ⟨|x.a / x.b|, ?_⟩
    have h2 : x.a ^ 2 = 5 * x.b ^ 2 := by linarith
    have hbR : (x.b : ℝ) ≠ 0 := by exact_mod_cast hb
    have h2R : (x.a : ℝ) ^ 2 = 5 * (x.b : ℝ) ^ 2 := by exact_mod_cast h2
    have habs : |(x.a : ℝ) / (x.b : ℝ)| ^ 2 = 5 := by
      rw [sq_abs, div_pow]
      rw [h2R]
      field_simp
    have hnn : (0:ℝ) ≤ |(x.a : ℝ) / (x.b : ℝ)| := abs_nonneg _
    have hs : Real.sqrt (|(x.a : ℝ) / (x.b : ℝ)| ^ 2) = |(x.a : ℝ) / (x.b : ℝ)| :=
      Real.sqrt_sq hnn
    rw [habs] at hs
    rw [hs]
    push_cast
    rw [abs_div]

theorem toReal_mul_inv (x : QR5) (h : x ≠ 0) : (inv x).toReal * x.toReal = 1 := by
  have hd := norm_ne_zero x h
  have hdR : ((x.a : ℝ) ^ 2 - 5 * (x.b : ℝ) ^ 2) ≠ 0 := by exact_mod_cast hd
  simp only [inv, toReal]
  push_cast
  field_simp
  linear_combination (-(x.b : ℝ) ^ 2) * sqrt5_sq

theorem toReal_inv (x : QR5) (h : x ≠ 0) : (inv x).toReal = x.toReal⁻¹ :=
  eq_inv_of_mul_eq_one_left (toReal_mul_inv x h)

end QR5

namespace QR5

/-- The square of s = √((5+√5)/2), i.e. the squared norm of every raw icosahedron
vertex (±1, ±φ, 0) etc., as an element of ℚ(√5). -/
def s2 : QR5 := ⟨5/2, 1/2⟩

theorem no_sqrt_s2 (x : QR5) : x * x ≠ s2 := by
  intro hx
  have h1 : x.a * x.a + 5 * (x.b * x.b) = 5/2 := congrArg QR5.a hx
  have h2 : x.a * x.b + x.b * x.a = 1/2 := congrArg QR5.b hx
  have hpq : x.a * x.b = 1/4 := by linarith
  have h16 : 16 * x.a ^ 4 - 40 * x.a ^ 2 + 5 = 0 := by
    linear_combination (16 * x.a ^ 2) * h1 + (-80 * (x.a * x.b + 1/4)) * hpq
  have hu : (4 * x.a ^ 2 - 5) ^ 2 = 20 := by linear_combination h16
  have hv : ((4 * x.a ^ 2 - 5) / 2) ^ 2 = 5 := by linear_combination (1/4 : ℚ) * hu
  exact no_rat_sqrt5 _ hv

theorem posB_false_iff (x : QR5) : x.posB = false ↔ x.toReal ≤ 0 := by
  rw [← Bool.not_eq_true, posB_iff]
  simp [not_lt]

theorem eq_zero_iff_toReal (x : QR5) : x = 0 ↔ x.toReal = 0 :=
  ⟨fun h => by simp [h], toReal_eq_zero x⟩

end QR5

/-- Elements of K = ℚ(√5, s) with s = √((5+√5)/2), represented as `p + q·s`
with `p q : QR5`.  All coordinates produced by the icosahedral construction
strategy lie in this field. -/
@[ext] structure GK where
  p : QR5
  q : QR5
deriving DecidableEq, Repr

namespace GK

def ofQR5 (x : QR5) : GK := ⟨x, 0⟩

def ofRat (x : ℚ) : GK := ⟨QR5.ofRat x, 0⟩

/-- The element s itself. -/
def sK : GK := ⟨0, 1⟩

instance : Zero GK := ⟨⟨0, 0⟩⟩
instance : One GK := ⟨⟨1, 0⟩⟩
instance : Add GK := ⟨fun x y => ⟨x.p + y.p, x.q + y.q⟩⟩
instance : Neg GK := ⟨fun x => ⟨-x.p, -x.q⟩⟩
instance : Sub GK := ⟨fun x y => ⟨x.p - y.p, x.q - y.q⟩⟩
instance : Mul GK := ⟨fun x y => ⟨x.p * y.p + x.q * y.q * QR5.s2, x.p * y.q + x.q * y.p⟩⟩

@[simp] theorem zero_p : (0 : GK).p = 0 := rfl
@[simp] theorem zero_q : (0 : GK).q = 0 := rfl
@[simp] theorem one_p : (1 : GK).p = 1 := rfl
@[simp] theorem one_q : (1 : GK).q = 0 := rfl
@[simp] theorem add_p (x y : GK) : (x + y).p = x.p + y.p := rfl
@[simp] theorem add_q (x y : GK) : (x + y).q = x.q + y.q := rfl
@[simp] theorem neg_p (x : GK) : (-x).p = -x.p := rfl
@[simp] theorem neg_q (x : GK) : (-x).q = -x.q := rfl
@[simp] theorem sub_p (x y : GK) : (x - y).p = x.p - y.p := rfl
@[simp] theorem sub_q (x y : GK) : (x - y).q = x.q - y.q := rfl
@[simp] theorem mul_p (x y : GK) : (x * y).p = x.p * y.p + x.q * y.q * QR5.s2 := rfl
@[simp] theorem mul_q (x y : GK) : (x * y).q = x.p * y.q + x.q * y.p := rfl

noncomputable instance : CommRing GK where
  add_assoc x y z := by ext <;> simp <;> ring
  zero_add x := by ext <;> simp
  add_zero x := by ext <;> simp
  add_comm x y := by ext <;> simp <;> ring
  mul_assoc x y z := by ext <;> simp <;> ring
  one_mul x := by ext <;> simp
  mul_one x := by ext <;> simp
  left_distrib x y z := by ext <;> simp <;> ring
  right_distrib x y z := by ext <;> simp <;> ring
  zero_mul x := by ext <;> simp
  mul_zero x := by ext <;> simp
  mul_comm x y := by ext <;> simp <;> ring
  neg_add_cancel x := by ext <;> simp
  sub_eq_add_neg x y := by ext <;> simp <;> ring
  nsmul := nsmulRec
  zsmul := zsmulRec

/-- The real number s = √((5+√5)/2). -/
noncomputable def sR : ℝ := Real.sqrt ((5 + Real.sqrt 5) / 2)

theorem sR_pos : 0 < sR := by
  apply Real.sqrt_pos.mpr
  have := QR5.sqrt5_pos
  linarith

theorem sR_sq : sR * sR = (5 + Real.sqrt 5) / 2 := by
  apply Real.mul_self_sqrt
  have := QR5.sqrt5_pos
  linarith

theorem toReal_s2 : QR5.s2.toReal = sR * sR := by
  rw [sR_sq]
  simp [QR5.s2, QR5.toReal]
  ring

/-- Interpretation of a representation as the real number it denotes. -/
noncomputable def toReal (x : GK) : ℝ := x.p.toReal + x.q.toReal * sR

@[simp] theorem toReal_zero_gk : (0 : GK).toReal = 0 := by simp [toReal]

@[simp] theorem toReal_one_gk : (1 : GK).toReal = 1 := by simp [toReal]

@[simp] theorem toReal_add_gk (x y : GK) : (x + y).toReal = x.toReal + y.toReal := by
  simp [toReal]; ring

@[simp] theorem toReal_neg_gk (x : GK) : (-x).toReal = -x.toReal := by
  simp [toReal]; ring

@[simp] theorem toReal_sub_gk (x y : GK) : (x - y).toReal = x.toReal - y.toReal := by
  simp [toReal]; ring

@[simp] theorem toReal_mul_gk (x y : GK) : (x * y).toReal = x.toReal * y.toReal := by
  simp only [toReal, mul_p, mul_q, QR5.toReal_add, QR5.toReal_mul, toReal_s2]
  ring

@[simp] theorem toReal_ofQR5 (x : QR5) : (ofQR5 x).toReal = x.toReal := by
  simp [toReal, ofQR5]

@[simp] theorem toReal_ofRat_gk (x : ℚ) : (ofRat x).toReal = (x : ℝ) := by
  simp [toReal, ofRat]

@[simp] theorem toReal_sK : sK.toReal = sR := by
  simp [toReal, sK]

theorem sR_not_qr5 (x : QR5) : x.toReal ≠ sR := by
  intro hx
  have hsq : (x * x).toReal = QR5.s2.toReal := by
    rw [QR5.toReal_mul, hx, toReal_s2]
  exact QR5.no_sqrt_s2 x (QR5.toReal_inj hsq)

theorem toReal_eq_zero_gk (x : GK) (h : x.toReal = 0) : x = 0 := by
  by_cases hq : x.q = 0
  · have hp : x.p.toReal = 0 := by simpa [toReal, hq] using h
    have := QR5.toReal_eq_zero _ hp
    ext <;> simp [this, hq]
  · exfalso
    have hqR : x.q.toReal ≠ 0 := QR5.toReal_ne_zero _ hq
    apply sR_not_qr5 (-x.p * (QR5.inv x.q))
    rw [QR5.toReal_mul, QR5.toReal_neg, QR5.toReal_inv _ hq]
    have : x.p.toReal = -(x.q.toReal * sR) := by
      have := h
      simp only [toReal] at this
      linarith
    rw [this]
    field_simp

theorem toReal_inj_gk {x y : GK} (h : x.toReal = y.toReal) : x = y := by
  have hz : (x - y).toReal = 0 := by simp [h]
  have := toReal_eq_zero_gk _ hz
  have hx : x - y + y = x := by ring
  rw [this] at hx
  simpa using hx.symm

theorem toReal_ne_zero_gk (x : GK) (h : x ≠ 0) : x.toReal ≠ 0 :=
  fun hc => h (toReal_eq_zero_gk x hc)

/-- Boolean decision procedure for strict positivity of the denoted real. -/
def posB (x : GK) : Bool :=
  if x.q = 0 then x.p.posB
  else if x.p = 0 then x.q.posB
  else if x.p.posB then
    if x.q.posB then true
    else (x.p * x.p - x.q * x.q * QR5.s2).posB
  else
    if x.q.posB then (x.q * x.q * QR5.s2 - x.p * x.p).posB
    else false

theorem posB_iff_gk (x : GK) : x.posB = true ↔ 0 < x.toReal := by
  have hs := sR_pos
  have tp := x.p.toReal
  unfold posB
  split_ifs with hq hp hpp hqq hqq
  · rw [QR5.posB_iff]
    simp [toReal, hq]
  · rw [QR5.posB_iff]
    simp only [toReal, hp, QR5.toReal_zero, zero_add]
    constructor
    · intro h; exact mul_pos h hs
    · intro h
      rcases lt_trichotomy (0:ℝ) x.q.toReal with h1 | h1 | h1
      · exact h1
      · rw [← h1] at h; simp at h
      · exfalso
        have : x.q.toReal * sR < 0 := mul_neg_of_neg_of_pos h1 hs
        linarith
  · simp only [true_iff]
    have h1 := (QR5.posB_iff _).mp hpp
    have h2 := (QR5.posB_iff _).mp hqq
    simp only [toReal]
    nlinarith [mul_pos h2 hs]
  · rw [QR5.posB_iff]
    simp only [QR5.toReal_sub, QR5.toReal_mul, toReal_s2]
    have h1 := (QR5.posB_iff x.p).mp hpp
    have h2 : x.q.toReal ≤ 0 := (QR5.posB_false_iff x.q).mp (Bool.not_eq_true _ ▸ hqq)
    have h2b : x.q.toReal < 0 := by
      rcases lt_or_eq_of_le h2 with h | h
      · exact h
      · exact absurd (QR5.toReal_eq_zero _ h) hq
    simp only [toReal]
    constructor
    · intro h
      by_contra hc
      push_neg at hc
      have g1 : (0:ℝ) ≤ -x.q.toReal * sR - x.p.toReal := by nlinarith [mul_pos (neg_pos.mpr h2b) hs]
      have g2 : (0:ℝ) ≤ -x.q.toReal * sR + x.p.toReal := by nlinarith [mul_pos (neg_pos.mpr h2b) hs]
      nlinarith [mul_nonneg g1 g2]
    · intro h
      have g1 : (0:ℝ) < x.p.toReal + x.q.toReal * sR := h
      have g2 : (0:ℝ) < x.p.toReal - x.q.toReal * sR := by nlinarith [mul_pos (neg_pos.mpr h2b) hs]
      nlinarith [mul_pos g1 g2]
  · rw [QR5.posB_iff]
    simp only [QR5.toReal_sub, QR5.toReal_mul, toReal_s2]
    have h2 := (QR5.posB_iff x.q).mp hqq
    have h1 : x.p.toReal ≤ 0 := (QR5.posB_false_iff x.p).mp (Bool.not_eq_true _ ▸ hpp)
    have h1b : x.p.toReal < 0 := by
      rcases lt_or_eq_of_le h1 with h | h
      · exact h
      · exact absurd (QR5.toReal_eq_zero _ h) hp
    simp only [toReal]
    constructor
    · intro h
      by_contra hc
      push_neg at hc
      have g1 : (0:ℝ) ≤ -(x.p.toReal + x.q.toReal * sR) := by linarith
      have g2 : (0:ℝ) ≤ x.q.toReal * sR - x.p.toReal := by nlinarith [mul_pos h2 hs]
      nlinarith [mul_nonneg g1 g2]
    · intro h
      have g2 : (0:ℝ) < x.q.toReal * sR - x.p.toReal := by linarith
      nlinarith [mul_pos h g2]
  · have h1 : x.p.toReal ≤ 0 := (QR5.posB_false_iff x.p).mp (Bool.not_eq_true _ ▸ hpp)
    have h2 : x.q.toReal ≤ 0 := (QR5.posB_false_iff x.q).mp (Bool.not_eq_true _ ▸ hqq)
    simp only [false_iff, not_lt, toReal]
    nlinarith [mul_nonneg (neg_nonneg.mpr h2) hs.le]

/-- Strict order on denoted reals, decided exactly. -/
def ltB (x y : GK) : Bool := (y - x).posB

/-- Nonstrict order on denoted reals, decided exactly. -/
def leB (x y : GK) : Bool := !(x - y).posB

theorem ltB_iff_gk (x y : GK) : ltB x y = true ↔ x.toReal < y.toReal := by
  unfold ltB
  rw [posB_iff_gk]
  simp [sub_pos]

theorem leB_iff_gk (x y : GK) : leB x y = true ↔ x.toReal ≤ y.toReal := by
  unfold leB
  rw [Bool.not_eq_true', ← Bool.not_eq_true, posB_iff_gk]
  simp [sub_pos, not_lt]

theorem eq_iff_toReal (x y : GK) : x = y ↔ x.toReal = y.toReal :=
  ⟨fun h => by rw [h], toReal_inj_gk⟩

theorem norm_ne_zero_gk (x : GK) (h : x ≠ 0) : x.p * x.p - x.q * x.q * QR5.s2 ≠ 0 := by
  intro hc
  by_cases hq : x.q = 0
  · have hp : x.p ≠ 0 := by
      intro hp
      exact h (by ext <;> simp [hp, hq])
    have : (x.p * x.p).toReal = 0 := by
      have : x.p * x.p - x.q * x.q * QR5.s2 + x.q * x.q * QR5.s2 = x.p * x.p := by ring
      rw [hc] at this
      rw [← this]
      simp [hq]
    rw [QR5.toReal_mul] at this
    exact QR5.toReal_ne_zero _ hp (by nlinarith [this])
  · have hqR : x.q.toReal ≠ 0 := QR5.toReal_ne_zero _ hq
    have hR : x.p.toReal ^ 2 = x.q.toReal ^ 2 * (sR * sR) := by
      have h0 := congrArg QR5.toReal hc
      simp only [QR5.toReal_sub, QR5.toReal_mul, toReal_s2, QR5.toReal_zero] at h0
      nlinarith [h0]
    have hratio : (x.p.toReal / x.q.toReal) ^ 2 = sR * sR := by
      field_simp
      linear_combination hR
    rcases le_or_lt 0 (x.p.toReal / x.q.toReal) with hsign | hsign
    · refine sR_not_qr5 (x.p * QR5.inv x.q) ?_
      rw [QR5.toReal_mul, QR5.toReal_inv _ hq, ← div_eq_mul_inv]
      have hfac : (x.p.toReal / x.q.toReal - sR) * (x.p.toReal / x.q.toReal + sR) = 0 := by
        linear_combination hratio
      rcases mul_eq_zero.mp hfac with h0 | h0
      · linarith
      · exfalso
        linarith [sR_pos]
    · refine sR_not_qr5 (-x.p * QR5.inv x.q) ?_
      rw [QR5.toReal_mul, QR5.toReal_neg, QR5.toReal_inv _ hq, ← div_eq_mul_inv, neg_div]
      have hfac : (-(x.p.toReal / x.q.toReal) - sR) * (-(x.p.toReal / x.q.toReal) + sR) = 0 := by
        linear_combination hratio
      rcases mul_eq_zero.mp hfac with h0 | h0
      · linarith
      · exfalso
        linarith [sR_pos]

/-- Exact inverse; sends 0 to 0 like the junk value of field division. -/
def inv (x : GK) : GK :=
  let dinv : QR5 := QR5.inv (x.p * x.p - x.q * x.q * QR5.s2)
  ⟨x.p * dinv, -x.q * dinv⟩

theorem toReal_mul_inv_gk (x : GK) (h : x ≠ 0) : (inv x).toReal * x.toReal = 1 := by
  have hd := norm_ne_zero_gk x h
  have hdR := QR5.toReal_ne_zero _ hd
  simp only [inv, toReal, QR5.toReal_mul, QR5.toReal_neg, QR5.toReal_inv _ hd]
  simp only [QR5.toReal_sub, QR5.toReal_mul, toReal_s2] at hdR ⊢
  field_simp
  ring

theorem toReal_inv_gk (x : GK) (h : x ≠ 0) : (inv x).toReal = x.toReal⁻¹ :=
  eq_inv_of_mul_eq_one_left (toReal_mul_inv_gk x h)

/-- Division as used by the embedded code. -/
def div (x y : GK) : GK := x * inv y

theorem toReal_div (x y : GK) (h : y ≠ 0) : (div x y).toReal = x.toReal / y.toReal := by
  rw [div, toReal_mul_gk, toReal_inv_gk _ h, div_eq_mul_inv]

end GK

/-- Fuel-driven Newton iteration for the integer square root; used only to
propose candidates that are verified exactly afterwards. -/
def isqrtGo (n : ℕ) : ℕ → ℕ → ℕ
  | 0, x => x
  | fuel + 1, x =>
    if (x + n / x) / 2 < x then isqrtGo n fuel ((x + n / x) / 2) else x

def isqrt (n : ℕ) : ℕ :=
  if n ≤ 1 then n else isqrtGo n n (n / 2 + 1)

/-- Candidate square root of a rational, as `isqrt(num·den)/den`; exact iff
the input is a rational square. -/
def ratSqrtCand (x : ℚ) : ℚ :=
  (isqrt (x.num * x.den).natAbs : ℚ) / (x.den : ℚ)

/-- Verified partial rational square root: any answer is checked before it
is returned, so soundness is immediate. -/
def ratSqrt (x : ℚ) : Option ℚ :=
  if ratSqrtCand x ^ 2 = x then some (ratSqrtCand x) else none

theorem ratSqrt_sound (x : ℚ) (r : ℚ) (h : ratSqrt x = some r) : r ^ 2 = x ∧ 0 ≤ r := by
  unfold ratSqrt at h
  split_ifs at h with hc
  cases h
  refine ⟨hc, ?_⟩
  unfold ratSqrtCand
  positivity

namespace QR5

/-- Verified partial square root in ℚ(√5): a small list of candidate roots is
generated and each is checked exactly; only a checked nonnegative root is
returned. -/
def sqrtB (x : QR5) : Option QR5 :=
  let base : List QR5 :=
    (match ratSqrt x.a with
     | some c => [⟨c, 0⟩]
     | none => []) ++
    (match ratSqrt (x.a / 5) with
     | some d => [⟨0, d⟩]
     | none => [])
  let gen : List QR5 :=
    match ratSqrt (x.a ^ 2 - 5 * x.b ^ 2) with
    | none => []
    | some r =>
      let f : ℚ → List QR5 := fun csq =>
        match ratSqrt csq with
        | none => []
        | some c =>
          if c = 0 then []
          else [⟨c, x.b / (2 * c)⟩, ⟨-c, -(x.b / (2 * c))⟩]
      f ((x.a + r) / 2) ++ f ((x.a - r) / 2)
  (base ++ gen).find? (fun c => decide (c * c = x) && (c.posB || decide (c = 0)))

theorem sqrtB_sound (x : QR5) (r : QR5) (h : sqrtB x = some r) :
    r * r = x ∧ (0 < r.toReal ∨ r = 0) := by
  unfold sqrtB at h
  have hp := List.find?_some h
  rw [Bool.and_eq_true, Bool.or_eq_true] at hp
  obtain ⟨h1, h2⟩ := hp
  refine ⟨of_decide_eq_true h1, ?_⟩
  rcases h2 with h2 | h2
  · exact Or.inl ((posB_iff r).mp h2)
  · exact Or.inr (of_decide_eq_true h2)

end QR5

namespace GK

/-- Verified partial square root in K: handles the two shapes that occur in
the mesh construction (an element of ℚ(√5), whose root lies either in ℚ(√5)
or in s·ℚ(√5)); any answer is checked exactly. -/
def sqrtB (x : GK) : Option GK :=
  if x.q = 0 then
    match QR5.sqrtB x.p with
    | some c => some ⟨c, 0⟩
    | none =>
      match QR5.sqrtB (x.p * QR5.inv QR5.s2) with
      | some c => some ⟨0, c⟩
      | none => none
  else none

theorem s2_ne_zero : QR5.s2 ≠ 0 := by decide

theorem inv_s2_mul : QR5.inv QR5.s2 * QR5.s2 = 1 :=
  QR5.toReal_inj (by
    rw [QR5.toReal_mul, QR5.toReal_inv _ s2_ne_zero, QR5.toReal_one]
    exact inv_mul_cancel₀ (QR5.toReal_ne_zero _ s2_ne_zero))

theorem sqrtB_sound_gk (x : GK) (r : GK) (h : sqrtB x = some r) :
    r * r = x ∧ (0 < r.toReal ∨ r = 0) := by
  unfold sqrtB at h
  split_ifs at h with hq
  · rcases hc : QR5.sqrtB x.p with _ | c
    · rw [hc] at h
      rcases hd : QR5.sqrtB (x.p * QR5.inv QR5.s2) with _ | d
      · rw [hd] at h
        cases h
      · rw [hd] at h
        cases h
        obtain ⟨hsq, hpos⟩ := QR5.sqrtB_sound _ _ hd
        constructor
        · refine GK.ext ?_ ?_
          · show (0 : QR5) * 0 + d * d * QR5.s2 = x.p
            calc (0 : QR5) * 0 + d * d * QR5.s2 = (d * d) * QR5.s2 := by ring
              _ = (x.p * QR5.inv QR5.s2) * QR5.s2 := by rw [hsq]
              _ = x.p * (QR5.inv QR5.s2 * QR5.s2) := by ring
              _ = x.p := by rw [inv_s2_mul, mul_one]
          · show (0 : QR5) * d + d * 0 = x.q
            rw [hq]; ring
        · rcases hpos with hp2 | h0
          · refine Or.inl ?_
            show (0:ℝ) < toReal ⟨0, d⟩
            simp only [toReal, QR5.toReal_zero, zero_add]
            exact mul_pos hp2 sR_pos
          · refine Or.inr ?_
            refine GK.ext ?_ ?_ <;> simp [h0]
    · rw [hc] at h
      cases h
      obtain ⟨hsq, hpos⟩ := QR5.sqrtB_sound _ _ hc
      constructor
      · refine GK.ext ?_ ?_
        · show c * c + (0 : QR5) * 0 * QR5.s2 = x.p
          calc c * c + (0 : QR5) * 0 * QR5.s2 = c * c := by ring
            _ = x.p := hsq
        · show c * 0 + (0 : QR5) * c = x.q
          rw [hq]; ring
      · rcases hpos with hp2 | h0
        · refine Or.inl ?_
          show (0:ℝ) < toReal ⟨c, 0⟩
          simpa [toReal] using hp2
        · refine Or.inr ?_
          refine GK.ext ?_ ?_ <;> simp [h0]

end GK

/-- A 3-component vector over K, the exact model of `THREE.Vector3`. -/
@[ext] structure V3 where
  x : GK
  y : GK
  z : GK
deriving DecidableEq, Repr

namespace V3

def add (u v : V3) : V3 := ⟨u.x + v.x, u.y + v.y, u.z + v.z⟩

def sub (u v : V3) : V3 := ⟨u.x - v.x, u.y - v.y, u.z - v.z⟩

def neg (u : V3) : V3 := ⟨-u.x, -u.y, -u.z⟩

def smul (c : GK) (u : V3) : V3 := ⟨c * u.x, c * u.y, c * u.z⟩

def dot (u v : V3) : GK := u.x * v.x + u.y * v.y + u.z * v.z

def cross (u v : V3) : V3 :=
  ⟨u.y * v.z - u.z * v.y, u.z * v.x - u.x * v.z, u.x * v.y - u.y * v.x⟩

def normSq (u : V3) : GK := dot u u

def zero : V3 := ⟨0, 0, 0⟩

/-- Model of `THREE.Vector3.normalize`: divide by the length, or by 1 when the
length is zero (three.js uses `divideScalar(length || 1)`).  The length is
obtained through the verified square root `GK.sqrtB`; its soundness theorem
shows any returned value is the true nonnegative root.  The fallback branch
(root not representable) is never taken by the construction: see
`method2_sqrt_ok` below, which checks this for every normalized vector. -/
def vnormalize (u : V3) : V3 :=
  match GK.sqrtB (normSq u) with
  | some l => if l = 0 then u else smul (GK.inv l) u
  | none => u

end V3

/-! Embedding of the geometry construction (`create2VGeodesicDomeMethod2`,
main module lines 91-228, and the hemisphere-extraction loop of
`create2VGeodesicDomeMethod1`, lines 39-88).

The subdivision of Method 2 is radius-independent in the source (scaling by
`radius` happens only in step 5), so its stages are embedded as top-level
definitions and the radius enters in `create2VGeodesicDomeMethod2`. -/

namespace Dome

/-- Shorthand for rational constants of the source. -/
def kq (x : ℚ) : GK := GK.ofRat x

/-- The application's only radius (`const domeRadius = 2`). -/
def domeRadius : GK := kq 2

/-- The hemisphere tolerance (`const tolerance = 0.05` in both strategies). -/
def tolerance : GK := kq (1/20)

/-- Golden ratio `(1 + Math.sqrt(5)) / 2` (line 95), exactly. -/
def phi : GK := GK.ofQR5 ⟨1/2, 1/2⟩

/-- Step 1 (lines 98-112): the 12 raw icosahedron vertices. -/
def baseVerticesRaw : List V3 :=
  [⟨kq (-1), phi, kq 0⟩,
   ⟨kq 1, phi, kq 0⟩,
   ⟨kq 0, kq 1, phi⟩,
   ⟨kq 0, kq 1, V3.neg ⟨phi, phi, phi⟩ |>.x⟩,
   ⟨V3.neg ⟨phi, phi, phi⟩ |>.x, kq 0, kq 1⟩,
   ⟨V3.neg ⟨phi, phi, phi⟩ |>.x, kq 0, kq (-1)⟩,
   ⟨phi, kq 0, kq 1⟩,
   ⟨phi, kq 0, kq (-1)⟩,
   ⟨kq 0, kq (-1), phi⟩,
   ⟨kq 0, kq (-1), V3.neg ⟨phi, phi, phi⟩ |>.x⟩,
   ⟨kq (-1), V3.neg ⟨phi, phi, phi⟩ |>.x, kq 0⟩,
   ⟨kq 1, V3.neg ⟨phi, phi, phi⟩ |>.x, kq 0⟩]

/-- Normalization onto the unit sphere (line 115). -/
def baseVertices : List V3 := baseVerticesRaw.map V3.vnormalize

/-- Step 2 (lines 118-123): the base face table, verbatim. -/
def baseFaces : List (ℕ × ℕ × ℕ) :=
  [(0, 2, 1), (0, 3, 2), (0, 1, 3), (1, 2, 6), (2, 3, 4),
   (3, 1, 7), (4, 5, 0), (5, 6, 1), (6, 7, 1), (7, 4, 3),
   (4, 0, 5), (5, 1, 0), (6, 2, 7), (7, 3, 4), (2, 4, 6),
   (4, 7, 6), (8, 9, 10), (8, 10, 11), (9, 11, 10), (8, 11, 9)]

/-- Edge key: the source uses the string `min-max`; the ordered pair is an
exact model. -/
def edgeKey (a b : ℕ) : ℕ × ℕ := (min a b, max a b)

/-- State of the midpoint-insertion loop (lines 128-153): the growing vertex
list, the set of seen edges and the edge→midpoint-index map, all in insertion
order like the JavaScript `Map`/`Set`. -/
structure SubdivState where
  vertices : List V3
  edges : List (ℕ × ℕ)
  subMap : List ((ℕ × ℕ) × ℕ)
deriving DecidableEq

/-- One edge visit of the loop: on an unseen edge, append the normalized
midpoint of the two (already normalized) endpoint vertices and record its
index (the current vertex count), exactly like lines 139-151. -/
def addEdge (base : List V3) (st : SubdivState) (e : ℕ × ℕ) : SubdivState :=
  if st.edges.contains e then st
  else
    let v1 := base.getD e.1 V3.zero
    let v2 := base.getD e.2 V3.zero
    let mid := V3.vnormalize (V3.smul (kq (1/2)) (V3.add v1 v2))
    { vertices := st.vertices ++ [mid]
      edges := st.edges ++ [e]
      subMap := st.subMap ++ [(e, st.vertices.length)] }

/-- Step 3 (lines 128-153): visit the three edges of every base face in
order, starting from the 12 base vertices. -/
def subdivide : SubdivState :=
  baseFaces.foldl
    (fun st f =>
      let st1 := addEdge baseVertices st (edgeKey f.1 f.2.1)
      let st2 := addEdge baseVertices st1 (edgeKey f.2.1 f.2.2)
      addEdge baseVertices st2 (edgeKey f.2.2 f.1))
    ⟨baseVertices, [], []⟩

def lookupEdge (m : List ((ℕ × ℕ) × ℕ)) (e : ℕ × ℕ) : ℕ :=
  ((m.find? (fun p => p.1 == e)).map (fun p => p.2)).getD 0

/-- Step 4 (lines 158-175): each base face becomes three corner triangles and
one center triangle. -/
def subdividedFaces : List (ℕ × ℕ × ℕ) :=
  baseFaces.flatMap (fun f =>
    let ab := lookupEdge subdivide.subMap (edgeKey f.1 f.2.1)
    let bc := lookupEdge subdivide.subMap (edgeKey f.2.1 f.2.2)
    let ca := lookupEdge subdivide.subMap (edgeKey f.2.2 f.1)
    [(f.1, ab, ca), (f.2.1, bc, ab), (f.2.2, ca, bc), (ab, bc, ca)])

/-- The hemisphere-retention test `v.y >= -tolerance` shared by both
strategies (lines 57 and 195). -/
def hemiKeep (v : V3) : Bool := GK.leB (kq 0 - tolerance) v.y

/-- State of the hemisphere extraction of Method 2 (lines 183-207). -/
structure ExtractState where
  verts : List V3
  vmap : List (ℕ × ℕ)
  faces : List (ℕ × ℕ × ℕ)

/-- Map one original vertex index into the compacted hemisphere index space,
appending the vertex on first visit (lines 198-203). -/
def mapVertex (vertices : List V3) (st : ExtractState) (i : ℕ) : ExtractState × ℕ :=
  match st.vmap.find? (fun p => p.1 == i) with
  | some p => (st, p.2)
  | none =>
    ({ st with
        verts := st.verts ++ [vertices.getD i V3.zero]
        vmap := st.vmap ++ [(i, st.verts.length)] },
     st.verts.length)

/-- Process one subdivided face (lines 188-207): keep it iff all three
vertices pass the height test, remapping its vertices. -/
def extractFace (vertices : List V3) (st : ExtractState) (f : ℕ × ℕ × ℕ) : ExtractState :=
  if hemiKeep (vertices.getD f.1 V3.zero) && hemiKeep (vertices.getD f.2.1 V3.zero) &&
      hemiKeep (vertices.getD f.2.2 V3.zero) then
    let r1 := mapVertex vertices st f.1
    let r2 := mapVertex vertices r1.1 f.2.1
    let r3 := mapVertex vertices r2.1 f.2.2
    { r3.1 with faces := r3.1.faces ++ [(r1.2, r2.2, r3.2)] }
  else st

def extractHemisphere (vertices : List V3) (faces : List (ℕ × ℕ × ℕ)) : ExtractState :=
  faces.foldl (extractFace vertices) ⟨[], [], []⟩

/-- Strategy B (`create2VGeodesicDomeMethod2`, lines 91-228): subdivide,
scale by the radius (step 5, line 180), extract the hemisphere. -/
def create2VGeodesicDomeMethod2 (radius : GK) : List V3 × List (ℕ × ℕ × ℕ) :=
  let verts := subdivide.vertices.map (V3.smul radius)
  let ex := extractHemisphere verts subdividedFaces
  (ex.verts, ex.faces)

/-- One step of Strategy A's face loop (`create2VGeodesicDomeMethod1`,
lines 51-74): a face whose three vertices pass the height test appends its
three vertices afresh (no sharing) and a face referencing them. -/
def method1Step (st : List V3 × List (ℕ × ℕ × ℕ)) (t : V3 × V3 × V3) :
    List V3 × List (ℕ × ℕ × ℕ) :=
  if hemiKeep t.1 && hemiKeep t.2.1 && hemiKeep t.2.2 then
    (st.1 ++ [t.1, t.2.1, t.2.2], st.2 ++ [(st.1.length, st.1.length + 1, st.1.length + 2)])
  else st

/-- Strategy A's hemisphere extraction over the (non-indexed) triangle soup
produced by the rendering library's `IcosahedronGeometry(radius, 1)`; the
soup itself is external library output, so the loop is embedded generically
over it. -/
def create2VGeodesicDomeMethod1Core (soup : List (V3 × V3 × V3)) :
    List V3 × List (ℕ × ℕ × ℕ) :=
  soup.foldl method1Step ([], [])

end Dome

/-! Embedding of the facet geometry oracle (`getFaceCentroidAndNormal`,
main module lines 684-724) and the visibility predicate (`isFaceVisible`,
lines 730-757), together with the buffer-geometry data they read.

JavaScript `undefined` (out-of-range reads of a buffer attribute) and the
`NaN`s it breeds are modelled by `none`; arithmetic propagates `none` and
every comparison with a `none` operand is `false`, exactly like NaN.
`Vector3.normalize` inside the oracle only rescales a vector by a positive
factor (or leaves a zero vector unchanged), so the oracle's `normal` is
modelled by the unnormalized direction vector: every claim about the normal
is a claim about signs of dot products, which such rescaling preserves. -/

namespace Dome

def jadd : Option GK → Option GK → Option GK
  | some a, some b => some (a + b)
  | _, _ => none

def jsub : Option GK → Option GK → Option GK
  | some a, some b => some (a - b)
  | _, _ => none

def jmul : Option GK → Option GK → Option GK
  | some a, some b => some (a * b)
  | _, _ => none

def jneg : Option GK → Option GK
  | some a => some (-a)
  | none => none

/-- Comparison with a `none` operand is false, like any comparison with NaN. -/
def jposB : Option GK → Bool
  | some a => GK.posB a
  | none => false

/-- A `THREE.Vector3` whose components may be `undefined`/NaN. -/
structure JV3 where
  x : Option GK
  y : Option GK
  z : Option GK
deriving DecidableEq, Repr

def jv3OfV3 (v : V3) : JV3 := ⟨some v.x, some v.y, some v.z⟩

def jv3Undef : JV3 := ⟨none, none, none⟩

def jv3Zero : JV3 := jv3OfV3 V3.zero

def jv3Add (u v : JV3) : JV3 := ⟨jadd u.x v.x, jadd u.y v.y, jadd u.z v.z⟩

def jv3Sub (u v : JV3) : JV3 := ⟨jsub u.x v.x, jsub u.y v.y, jsub u.z v.z⟩

def jv3Neg (u : JV3) : JV3 := ⟨jneg u.x, jneg u.y, jneg u.z⟩

/-- `divideScalar 3` of the source, as exact multiplication by 1/3. -/
def jv3Div3 (u : JV3) : JV3 :=
  ⟨jmul (some (GK.inv (kq 3))) u.x, jmul (some (GK.inv (kq 3))) u.y,
   jmul (some (GK.inv (kq 3))) u.z⟩

def jcross (u v : JV3) : JV3 :=
  ⟨jsub (jmul u.y v.z) (jmul u.z v.y),
   jsub (jmul u.z v.x) (jmul u.x v.z),
   jsub (jmul u.x v.y) (jmul u.y v.x)⟩

def jdot (u v : JV3) : Option GK :=
  jadd (jadd (jmul u.x v.x) (jmul u.y v.y)) (jmul u.z v.z)

/-- The indexed buffer geometry handed to the oracle: a flat position
attribute and an optional index attribute. -/
structure BufferGeo where
  positions : List GK
  index : Option (List ℕ)

/-- `geometry.setAttribute`/`setIndex` of `buildDomeVisuals` (lines 421-423):
flatten the vertex list, index the triangle list.  This is the
`completeGeometry` every oracle call uses. -/
def completeGeometryOf (mesh : List V3 × List (ℕ × ℕ × ℕ)) : BufferGeo :=
  { positions := (mesh.1.map (fun v => [v.x, v.y, v.z])).flatten
    index := some (mesh.2.flatMap (fun f => [f.1, f.2.1, f.2.2])) }

/-- The mesh the application builds under Strategy B at its only radius. -/
def method2Mesh : List V3 × List (ℕ × ℕ × ℕ) := create2VGeodesicDomeMethod2 domeRadius

def method2Geometry : BufferGeo := completeGeometryOf method2Mesh

/-- `new THREE.Vector3().fromBufferAttribute(posAttr, i)` with an
out-of-range or undefined index producing undefined components. -/
def fetchVert (g : BufferGeo) : Option ℕ → JV3
  | none => jv3Undef
  | some i => ⟨g.positions.get? (3 * i), g.positions.get? (3 * i + 1), g.positions.get? (3 * i + 2)⟩

/-- Pure core of the oracle on three defined vertices (lines 709-722):
centroid, cross-product normal, and the flip toward the outside. -/
def faceCoreV (vA vB vC : V3) : V3 × V3 :=
  let centroid := V3.smul (GK.inv (kq 3)) (V3.add (V3.add vA vB) vC)
  let cb := V3.sub vC vB
  let ab := V3.sub vA vB
  let normal := V3.cross cb ab
  let toCenter := V3.sub V3.zero centroid
  (centroid, if GK.posB (V3.dot normal toCenter) then V3.neg normal else normal)

/-- The same computation in NaN-propagating arithmetic. -/
def faceCore (vA vB vC : JV3) : JV3 × JV3 :=
  let centroid := jv3Div3 (jv3Add (jv3Add vA vB) vC)
  let cb := jv3Sub vC vB
  let ab := jv3Sub vA vB
  let normal := jcross cb ab
  let toCenter := jv3Sub jv3Zero centroid
  (centroid, if jposB (jdot normal toCenter) then jv3Neg normal else normal)

/-- `getFaceCentroidAndNormal(geom, faceIdx)` (lines 684-724): `null` exactly
for an invalid geometry or a missing index attribute; otherwise the three fetches
happen without any range check and the arithmetic runs on whatever (possibly
undefined) values they produce. -/
def getFaceCentroidAndNormal (geom : Option BufferGeo) (faceIdx : ℕ) :
    Option (JV3 × JV3) :=
  match geom with
  | none => none
  | some g =>
    match g.index with
    | none => none
    | some idx =>
      let vA := fetchVert g (idx.get? (3 * faceIdx))
      let vB := fetchVert g (idx.get? (3 * faceIdx + 1))
      let vC := fetchVert g (idx.get? (3 * faceIdx + 2))
      some (faceCore vA vB vC)

/-- The oracle's `dot(normal, centroid − center)` with `center` the origin,
the quantity the outward-normal property speaks about. -/
def oracleDot (geom : Option BufferGeo) (faceIdx : ℕ) : Option GK :=
  match getFaceCentroidAndNormal geom faceIdx with
  | some (c, n) => jdot n c
  | none => none

/-- Exact model of `dot(u.normalize(), v.normalize()) > 0.1`: both norms are
positive multiples, so the threshold test is equivalent to the squared
comparison below; a zero vector normalizes to zero and fails the test, and a
NaN operand also fails it. -/
def jdotGtTenth (u v : JV3) : Bool :=
  match u, v with
  | ⟨some ux, some uy, some uz⟩, ⟨some vx, some vy, some vz⟩ =>
    let a : V3 := ⟨ux, uy, uz⟩
    let b : V3 := ⟨vx, vy, vz⟩
    GK.posB (V3.dot a b) &&
      GK.ltB (kq (1/100) * (V3.normSq a * V3.normSq b)) (V3.dot a b * V3.dot a b)
  | _, _ => false

/-- `isFaceVisible(geom, faceIdx, camera)` (lines 730-757).  The dome group's
world transform is the identity (the application never moves it), so the
local→world conversions are identities.  `domeGroupExists` models whether the
global `domeGroup` reference is set. -/
def isFaceVisible (geom : Option BufferGeo) (faceIdx : ℕ) (cameraPos : V3)
    (domeGroupExists : Bool) : Bool :=
  match getFaceCentroidAndNormal geom faceIdx with
  | none => false
  | some (centroid, normal) =>
    if !domeGroupExists then true
    else
      let cameraDirection := jv3Sub (jv3OfV3 cameraPos) centroid
      jdotGtTenth normal cameraDirection

end Dome

/-! Embedding of the logical face numbering (`createLogicalFaceNumbering`,
main module lines 912-980).

`Array.prototype.sort` with a numeric comparator is a stable sort (and a
comparator returning NaN is treated like 0, i.e. a tie); it is modelled by a
stable insertion sort in which a later element `a` is placed before an
existing element `b` exactly when the comparator makes `a` strictly precede
`b`.  `Math.atan2` is never computed as a number: only comparisons of angles
matter, and they are decided exactly by quadrant classification plus a
cross-product sign. -/

namespace Dome

/-- One collected entry of `faceHeights`: original face index and the
centroid data the sorts read. -/
structure FaceEntry where
  index : ℕ
  y : Option GK
  cx : Option GK
  cz : Option GK
deriving Repr, DecidableEq

/-- Stable insertion: `x` (arriving later) goes before the first element it
strictly precedes. -/
def jsSortedInsert (lt : α → α → Bool) (x : α) : List α → List α
  | [] => [x]
  | y :: ys => if lt x y then x :: y :: ys else y :: jsSortedInsert lt x ys

/-- Stable sort, the model of `Array.prototype.sort(comparator)`. -/
def jsSort (lt : α → α → Bool) (l : List α) : List α :=
  l.foldl (fun acc x => jsSortedInsert lt x acc) []

/-- Comparator `(a, b) => b.y - a.y` (descending height); a NaN height never
strictly precedes. -/
def heightLt (a b : FaceEntry) : Bool :=
  match a.y, b.y with
  | some p, some q => GK.ltB q p
  | _, _ => false

/-- Quadrant class of `atan2(z, x)` in increasing angular order:
0 on (−π, 0), 1 at 0 (including `atan2(0, 0) = 0`), 2 on (0, π), 3 at π. -/
def angClass (z x : GK) : ℕ :=
  if GK.ltB z 0 then 0
  else if GK.ltB 0 z then 2
  else if GK.ltB x 0 then 3
  else 1

/-- Comparator `atan2(a.z, a.x) - atan2(b.z, b.x) < 0`, decided exactly:
by quadrant class, and inside an open half-plane by the sign of the cross
product `a.x·b.z − a.z·b.x`. -/
def angLt (a b : FaceEntry) : Bool :=
  match a.cx, a.cz, b.cx, b.cz with
  | some xa, some za, some xb, some zb =>
    let ca := angClass za xa
    let cb := angClass zb xb
    if ca < cb then true
    else if cb < ca then false
    else if ca = 0 || ca = 2 then GK.posB (xa * zb - za * xb)
    else false
  | _, _, _, _ => false

/-- Collection loop of lines 917-926: one entry per face the oracle answers
for, in face-index order. -/
def faceHeights (n : ℕ) (geom : Option BufferGeo) : List FaceEntry :=
  (List.range n).foldl
    (fun acc i =>
      match getFaceCentroidAndNormal geom i with
      | some (c, _) => acc ++ [⟨i, c.y, c.x, c.z⟩]
      | none => acc)
    []

/-- Test of lines 937-943: the face joins a level iff the level is nonempty
and its first (seed) entry's height is within the tolerance 0.2; a NaN on
either side fails the test, like any NaN comparison. -/
def levelTest (f : FaceEntry) (level : List FaceEntry) : Bool :=
  match level with
  | [] => false
  | e :: _ =>
    match e.y, f.y with
    | some p, some q =>
      GK.ltB (p - q) (kq (1/5)) && GK.ltB (kq (-1/5)) (p - q)
    | _, _ => false

/-- Greedy level assignment of lines 934-947: scan existing levels in order,
append to the first that matches, else open a new level at the end. -/
def addToLevels (lvls : List (List FaceEntry)) (f : FaceEntry) : List (List FaceEntry) :=
  match lvls with
  | [] => [[f]]
  | l :: rest => if levelTest f l then (l ++ [f]) :: rest else l :: addToLevels rest f

/-- Height levels of the mesh, built from the height-sorted entries. -/
def buildLevels (n : ℕ) (geom : Option BufferGeo) : List (List FaceEntry) :=
  (jsSort heightLt (faceHeights n geom)).foldl addToLevels []

/-- List update, the model of `logicalNumbering[i] = v`. -/
def listSet : List ℕ → ℕ → ℕ → List ℕ
  | [], _, _ => []
  | _ :: xs, 0, v => v :: xs
  | m :: xs, k + 1, v => m :: listSet xs k v

/-- Sequential assignment of lines 969-977, starting at 1, over the
angle-sorted levels in order.  The source allocates `new Array(totalFaces)`
whose unassigned slots stay `undefined`; they are modelled by 0 (no claim
touches them: every in-range face receives a number). -/
def assignNumbers (n : ℕ) (lvls : List (List FaceEntry)) : List ℕ :=
  (lvls.flatten.foldl
    (fun (st : List ℕ × ℕ) e => (listSet st.1 e.index st.2, st.2 + 1))
    (List.replicate n 0, 1)).1

/-- `createLogicalFaceNumbering` (lines 912-980): collect, sort by height
descending, bucket into levels, sort each level by angle ascending, then
number sequentially from 1. -/
def createLogicalFaceNumbering (n : ℕ) (geom : Option BufferGeo) : List ℕ :=
  assignNumbers n ((buildLevels n geom).map (jsSort angLt))

end Dome

/-! Embedding of the annotation store (`faceData`, `onSaveFaceText`,
`onClearFaceText`, `loadInitialFaceData`, main module lines 604-670 and
835-853) and of the modal wiring (`ui.ts`).

The store is the key→text map `faceData`; label-overlay and localStorage
side effects accompany every mutation in the source but carry no data back
into the store, so the embedding models the store state itself.  The modal
state carries the fields of `ui.ts` that the handlers read and write. -/

namespace Dome

/-- The in-memory annotation map `faceData` (line 604), as a function store
with `none` for absent keys. -/
def FaceStore : Type := ℕ → Option String

def storeGet (st : FaceStore) (i : ℕ) : Option String := st i

def storeSet (st : FaceStore) (i : ℕ) (t : String) : FaceStore :=
  fun j => if j = i then some t else st j

def storeDelete (st : FaceStore) (i : ℕ) : FaceStore :=
  fun j => if j = i then none else st j

def storeHas (st : FaceStore) (i : ℕ) : Bool := (st i).isSome

/-- ASCII whitespace; JavaScript `trim` also strips the rarer Unicode space
code points, which none of the specified behaviours involve. -/
def isWs (c : Char) : Bool := c = ' ' || c = '\t' || c = '\n' || c = '\r'

/-- Model of `String.prototype.trim`: strip leading and trailing whitespace. -/
def jsTrim (s : String) : String :=
  ⟨((s.data.dropWhile isWs).reverse.dropWhile isWs).reverse⟩

/-- `onSaveFaceText` (lines 835-846): save the trimmed text, or delete when
the trimmed text is empty. -/
def onSaveFaceText (st : FaceStore) (faceIndex : ℕ) (text : String) : FaceStore :=
  if jsTrim text ≠ "" then storeSet st faceIndex (jsTrim text)
  else storeDelete st faceIndex

/-- `onClearFaceText` (lines 848-853): delete. -/
def onClearFaceText (st : FaceStore) (faceIndex : ℕ) : FaceStore :=
  storeDelete st faceIndex

/-- `loadInitialFaceData` (lines 654-670): install a seed entry only where no
entry exists yet, scanning the seed mapping in order. -/
def loadInitialFaceData (seed : List (ℕ × String)) (st : FaceStore) : FaceStore :=
  seed.foldl (fun acc kv => if storeHas acc kv.1 then acc else storeSet acc kv.1 kv.2) st

/-- The modal state of `ui.ts`: whether the modal is displayed, the input
field, the existing-text paragraph, and the current face index. -/
structure ModalState where
  store : FaceStore
  displayed : Bool
  inputValue : String
  existingText : String
  currentFaceIndex : Option ℕ

/-- `showModal` (ui.ts lines 71-83). -/
def showModal (s : ModalState) (faceIndex : ℕ) (existing : Option String) : ModalState :=
  { s with
      currentFaceIndex := some faceIndex
      existingText := existing.getD "No notes yet."
      inputValue := existing.getD ""
      displayed := true }

/-- The Save button handler (ui.ts lines 30-45): commit via `onSaveFaceText`
when a face is current, then hide the modal (in both branches). -/
def saveClick (s : ModalState) : ModalState :=
  match s.currentFaceIndex with
  | some i => { s with store := onSaveFaceText s.store i s.inputValue, displayed := false }
  | none => { s with displayed := false }

/-- The Clear button handler (ui.ts lines 47-61): when a face is current,
delete its annotation via `onClearFaceText` and reset the input field and the
existing-text paragraph; the modal's display is not touched. -/
def clearClick (s : ModalState) : ModalState :=
  match s.currentFaceIndex with
  | some i =>
    { s with
        store := onClearFaceText s.store i
        inputValue := ""
        existingText := "No notes yet." }
  | none => s

end Dome

/-! Shared concrete helpers used by witnesses. -/

namespace Dome

/-- A minimal valid indexed geometry: the single triangle (e1, e2, e3). -/
def tinyGeo : BufferGeo :=
  { positions := [kq 1, kq 0, kq 0, kq 0, kq 1, kq 0, kq 0, kq 0, kq 1]
    index := some [0, 1, 2] }

/-- A geometry without an index attribute. -/
def unindexedGeo : BufferGeo := { positions := [kq 1], index := none }

end Dome

set_option maxRecDepth 100000

/-- C7: for every facet index `i` and text `t`, saving "hello" then reading
returns "hello"; saving whitespace-only text behaves as a delete and reading
returns absent; saving then deleting reads absent; and whatever is stored for
a save of `t` is exactly the trimmed form of `t`. -/
theorem claimC7_annotation_round_trip :
    ∀ (st : Dome.FaceStore) (i : ℕ) (t : String),
      Dome.storeGet (Dome.onSaveFaceText st i "hello") i = some "hello" ∧
      Dome.storeGet (Dome.onSaveFaceText st i "  ") i = none ∧
      Dome.storeGet (Dome.onClearFaceText (Dome.onSaveFaceText st i t) i) i = none ∧
      (∀ s, Dome.storeGet (Dome.onSaveFaceText st i t) i = some s → s = Dome.jsTrim t) := by
  intro st i t
  refine ⟨?_, ?_, ?_, ?_⟩
  · have h1 : Dome.jsTrim "hello" = "hello" := by decide
    have h2 : Dome.jsTrim "hello" ≠ "" := by decide
    simp [Dome.onSaveFaceText, h1, h2, Dome.storeGet, Dome.storeSet]
  · have h1 : Dome.jsTrim "  " = "" := by decide
    simp [Dome.onSaveFaceText, h1, Dome.storeGet, Dome.storeDelete]
  · simp [Dome.onClearFaceText, Dome.storeGet, Dome.storeDelete]
  · intro s hs
    unfold Dome.onSaveFaceText at hs
    split_ifs at hs with ht
    · simpa [Dome.storeGet, Dome.storeSet] using hs.symm
    · simp [Dome.storeGet, Dome.storeDelete] at hs

/-- Relation between `loadInitialFaceData` and a single lookup: an existing
entry always wins, otherwise the first seed entry for the key is installed. -/
theorem loadInitialFaceData_get (seed : List (ℕ × String)) :
    ∀ (st : Dome.FaceStore) (i : ℕ),
      Dome.storeGet (Dome.loadInitialFaceData seed st) i =
        ((Dome.storeGet st i).orElse
          (fun _ => (seed.find? (fun kv => kv.1 == i)).map (fun kv => kv.2))) := by
  induction seed with
  | nil => intro st i; cases h : Dome.storeGet st i <;> simp [Dome.loadInitialFaceData, h]
  | cons kv rest ih =>
    intro st i
    have hstep : Dome.loadInitialFaceData (kv :: rest) st =
        Dome.loadInitialFaceData rest
          (if Dome.storeHas st kv.1 then st else Dome.storeSet st kv.1 kv.2) := by
      simp [Dome.loadInitialFaceData]
    rw [hstep, ih]
    by_cases hk : kv.1 = i
    · subst hk
      cases h : st kv.1 with
      | some v =>
        have hh : Dome.storeHas st kv.1 = true := by simp [Dome.storeHas, Dome.storeGet, h]
        simp [hh, Dome.storeGet, h, List.find?]
      | none =>
        have hh : Dome.storeHas st kv.1 = false := by simp [Dome.storeHas, Dome.storeGet, h]
        simp [hh, Dome.storeGet, Dome.storeSet, h, List.find?]
    · have hne : (kv.1 == i) = false := by simp [hk]
      by_cases hh : Dome.storeHas st kv.1
      · simp [hh, List.find?, hne]
      · simp [hh, List.find?, hne, Dome.storeGet, Dome.storeSet, Ne.symm hk]

/-- C8: `loadDefaults` installs a seed entry only where no stored entry
exists and never overwrites one: in general the existing entry always wins
and an absent key receives the first seed text for it; in particular, with
facet 3 already holding "mine" and a seed holding "seed" for 3 and
"seed's text" for 7, facet 3 still reads "mine" and facet 7 reads the seed
text. -/
theorem claimC8_seed_non_override :
    (∀ (seed : List (ℕ × String)) (st : Dome.FaceStore) (i : ℕ) (v : String),
      Dome.storeGet st i = some v →
        Dome.storeGet (Dome.loadInitialFaceData seed st) i = some v) ∧
    (∀ (seed : List (ℕ × String)) (st : Dome.FaceStore) (i : ℕ),
      Dome.storeGet st i = none →
        Dome.storeGet (Dome.loadInitialFaceData seed st) i =
          (seed.find? (fun kv => kv.1 == i)).map (fun kv => kv.2)) ∧
    (Dome.storeGet
        (Dome.loadInitialFaceData [(3, "seed"), (7, "mapped")]
          (Dome.storeSet (fun _ => none) 3 "mine")) 3 = some "mine" ∧
      Dome.storeGet
        (Dome.loadInitialFaceData [(3, "seed"), (7, "mapped")]
          (Dome.storeSet (fun _ => none) 3 "mine")) 7 = some "mapped") := by
  refine ⟨?_, ?_, ?_, ?_⟩
  · intro seed st i v h
    rw [loadInitialFaceData_get, h]
    simp
  · intro seed st i h
    rw [loadInitialFaceData_get, h]
    simp
  · rw [loadInitialFaceData_get]
    simp [Dome.storeGet, Dome.storeSet]
  · rw [loadInitialFaceData_get]
    simp [Dome.storeGet, Dome.storeSet, List.find?]

/-- C9: with the modal in its editing state for facet `i`, the Clear action
deletes the annotation and resets the input field while leaving the modal
display unchanged (open), whereas the Save action closes the modal. -/
theorem claimC9_clear_save_asymmetry :
    ∀ (s : Dome.ModalState) (i : ℕ), s.currentFaceIndex = some i →
      Dome.storeGet (Dome.clearClick s).store i = none ∧
      (Dome.clearClick s).inputValue = "" ∧
      (Dome.clearClick s).displayed = s.displayed ∧
      (Dome.saveClick s).displayed = false := by
  intro s i h
  refine ⟨?_, ?_, ?_, ?_⟩ <;>
    simp [Dome.clearClick, Dome.saveClick, h, Dome.onClearFaceText, Dome.storeGet,
      Dome.storeDelete]

/-- Closed instance of C9, applying `claimC9_clear_save_asymmetry` to a
concrete editing state. -/
theorem claimC9_witness :
    Dome.storeGet
        (Dome.clearClick
          ⟨Dome.storeSet (fun _ => none) 5 "note", true, "note", "note", some 5⟩).store 5 =
        none ∧
      (Dome.clearClick
        ⟨Dome.storeSet (fun _ => none) 5 "note", true, "note", "note", some 5⟩).inputValue = "" ∧
      (Dome.clearClick
        ⟨Dome.storeSet (fun _ => none) 5 "note", true, "note", "note", some 5⟩).displayed =
        (⟨Dome.storeSet (fun _ => none) 5 "note", true, "note", "note",
            some 5⟩ : Dome.ModalState).displayed ∧
      (Dome.saveClick
        ⟨Dome.storeSet (fun _ => none) 5 "note", true, "note", "note", some 5⟩).displayed =
        false :=
  claimC9_clear_save_asymmetry _ 5 rfl

/-- C10: when the dome group reference is unset but the oracle still yields a
centroid/normal pair, `isFaceVisible` reports the facet visible (returns
true) for every facet index and camera position. -/
theorem claimC10_no_group_defaults_visible :
    ∀ (geom : Option Dome.BufferGeo) (faceIdx : ℕ) (cameraPos : V3),
      (Dome.getFaceCentroidAndNormal geom faceIdx).isSome = true →
      Dome.isFaceVisible geom faceIdx cameraPos false = true := by
  intro geom faceIdx cameraPos h
  unfold Dome.isFaceVisible
  rcases ho : Dome.getFaceCentroidAndNormal geom faceIdx with _ | cn
  · rw [ho] at h
    simp at h
  · simp

/-- Closed instance of C10 on a concrete one-triangle geometry. -/
theorem claimC10_witness :
    Dome.isFaceVisible (some Dome.tinyGeo) 0 ⟨Dome.kq 0, Dome.kq 0, Dome.kq 0⟩ false = true :=
  claimC10_no_group_defaults_visible (some Dome.tinyGeo) 0 _ (by decide)

/-- Amended C5: the oracle fails (returns null) exactly for an invalid
geometry or a missing index attribute; with an index attribute present it
returns a (possibly NaN-component) pair for every facet index, including
out-of-range ones. -/
theorem claimC5_amended :
    ∀ (i : ℕ),
      Dome.getFaceCentroidAndNormal none i = none ∧
      (∀ g : Dome.BufferGeo, g.index = none →
        Dome.getFaceCentroidAndNormal (some g) i = none) ∧
      (∀ (g : Dome.BufferGeo) (idx : List ℕ), g.index = some idx →
        (Dome.getFaceCentroidAndNormal (some g) i).isSome = true) := by
  intro i
  refine ⟨rfl, ?_, ?_⟩
  · intro g hg
    cases g with
    | mk pos idx0 =>
      change idx0 = none at hg
      subst hg
      rfl
  · intro g idx hg
    cases g with
    | mk pos idx0 =>
      change idx0 = some idx at hg
      subst hg
      rfl

/-- Closed instance of the amended C5 on concrete geometries. -/
theorem claimC5_amended_witness :
    Dome.getFaceCentroidAndNormal none 0 = none ∧
      Dome.getFaceCentroidAndNormal (some Dome.unindexedGeo) 0 = none ∧
      (Dome.getFaceCentroidAndNormal (some Dome.tinyGeo) 7).isSome = true :=
  ⟨(claimC5_amended 0).1,
   (claimC5_amended 0).2.1 _ rfl,
   (claimC5_amended 7).2.2 _ _ rfl⟩

/-! The outward-normal property of the oracle. -/

theorem jadd_eq_some {a b : Option GK} {d : GK} (h : Dome.jadd a b = some d) :
    ∃ x y, a = some x ∧ b = some y := by
  cases a with
  | none => simp [Dome.jadd] at h
  | some x =>
    cases b with
    | none => simp [Dome.jadd] at h
    | some y => exact ⟨x, y, rfl, rfl⟩

theorem jmul_eq_some {a b : Option GK} {d : GK} (h : Dome.jmul a b = some d) :
    ∃ x y, a = some x ∧ b = some y := by
  cases a with
  | none => simp [Dome.jmul] at h
  | some x =>
    cases b with
    | none => simp [Dome.jmul] at h
    | some y => exact ⟨x, y, rfl, rfl⟩

/-- A defined dot product forces both vectors to be fully defined. -/
theorem jdot_defined {u v : Dome.JV3} {d : GK} (h : Dome.jdot u v = some d) :
    (∃ a : V3, u = Dome.jv3OfV3 a) ∧ (∃ b : V3, v = Dome.jv3OfV3 b) := by
  unfold Dome.jdot at h
  obtain ⟨s1, s2, h1, h2⟩ := jadd_eq_some h
  obtain ⟨s3, s4, h3, h4⟩ := jadd_eq_some h1
  obtain ⟨x1, y1, hx1, hy1⟩ := jmul_eq_some h3
  obtain ⟨x2, y2, hx2, hy2⟩ := jmul_eq_some h4
  obtain ⟨x3, y3, hx3, hy3⟩ := jmul_eq_some h2
  cases u with
  | mk ux uy uz =>
    cases v with
    | mk vx vy vz =>
      refine ⟨⟨⟨x1, x2, x3⟩, ?_⟩, ⟨⟨y1, y2, y3⟩, ?_⟩⟩ <;>
        simp_all [Dome.jv3OfV3]

theorem jv3Neg_defined {u : Dome.JV3} {w : V3} (h : Dome.jv3Neg u = Dome.jv3OfV3 w) :
    u = Dome.jv3OfV3 (V3.neg w) := by
  cases u with
  | mk ux uy uz =>
    cases ux <;> cases uy <;> cases uz <;>
      simp_all [Dome.jv3Neg, Dome.jneg, Dome.jv3OfV3, V3.neg] <;>
      simp_all [neg_eq_iff_eq_neg]

theorem v3_dot_neg_left (a b : V3) : V3.dot (V3.neg a) b = -(V3.dot a b) := by
  simp only [V3.dot, V3.neg]
  ring

theorem v3_dot_sub_zero_right (a b : V3) :
    V3.dot a (V3.sub V3.zero b) = -(V3.dot a b) := by
  simp only [V3.dot, V3.sub, V3.zero]
  ring

theorem faceCore_snd_eq (vA vB vC : Dome.JV3) :
    (Dome.faceCore vA vB vC).2 =
      (if Dome.jposB (Dome.jdot (Dome.jcross (Dome.jv3Sub vC vB) (Dome.jv3Sub vA vB))
            (Dome.jv3Sub Dome.jv3Zero (Dome.faceCore vA vB vC).1)) then
        Dome.jv3Neg (Dome.jcross (Dome.jv3Sub vC vB) (Dome.jv3Sub vA vB))
      else Dome.jcross (Dome.jv3Sub vC vB) (Dome.jv3Sub vA vB)) := rfl

theorem jdot_ofV3 (a b : V3) :
    Dome.jdot (Dome.jv3OfV3 a) (Dome.jv3OfV3 b) = some (V3.dot a b) := rfl

theorem jv3Sub_zero_ofV3 (a : V3) :
    Dome.jv3Sub Dome.jv3Zero (Dome.jv3OfV3 a) = Dome.jv3OfV3 (V3.sub V3.zero a) := rfl

/-- After the flip correction, the dot product of the returned normal with
the centroid (minus the dome center, the origin) is never negative. -/
theorem faceCore_dot_nonneg (vA vB vC : Dome.JV3) (d : GK)
    (h : Dome.jdot (Dome.faceCore vA vB vC).2 (Dome.faceCore vA vB vC).1 = some d) :
    0 ≤ d.toReal := by
  rw [faceCore_snd_eq] at h
  by_cases hcond :
      Dome.jposB (Dome.jdot (Dome.jcross (Dome.jv3Sub vC vB) (Dome.jv3Sub vA vB))
        (Dome.jv3Sub Dome.jv3Zero (Dome.faceCore vA vB vC).1)) = true
  · rw [if_pos hcond] at h
    obtain ⟨⟨nv, hnv⟩, ⟨cv, hcv⟩⟩ := jdot_defined h
    have hn0 : Dome.jcross (Dome.jv3Sub vC vB) (Dome.jv3Sub vA vB) =
        Dome.jv3OfV3 (V3.neg nv) := jv3Neg_defined hnv
    rw [hnv, hcv, jdot_ofV3] at h
    have hd : d = V3.dot nv cv := by
      injection h with h
      exact h.symm
    rw [hn0, hcv, jv3Sub_zero_ofV3, jdot_ofV3] at hcond
    have hpos : 0 < (V3.dot (V3.neg nv) (V3.sub V3.zero cv)).toReal :=
      (GK.posB_iff_gk _).mp hcond
    rw [v3_dot_neg_left, v3_dot_sub_zero_right] at hpos
    simp only [GK.toReal_neg_gk, neg_neg] at hpos
    rw [hd]
    exact hpos.le
  · rw [if_neg hcond] at h
    obtain ⟨⟨nv, hnv⟩, ⟨cv, hcv⟩⟩ := jdot_defined h
    rw [hnv, hcv, jdot_ofV3] at h
    have hd : d = V3.dot nv cv := by
      injection h with h
      exact h.symm
    rw [hnv, hcv, jv3Sub_zero_ofV3, jdot_ofV3] at hcond
    have hnpos : ¬ 0 < (V3.dot nv (V3.sub V3.zero cv)).toReal := by
      intro hlt
      apply hcond
      show Dome.jposB (some (V3.dot nv (V3.sub V3.zero cv))) = true
      exact (GK.posB_iff_gk _).mpr hlt
    rw [v3_dot_sub_zero_right] at hnpos
    simp only [GK.toReal_neg_gk, not_lt] at hnpos
    rw [hd]
    linarith [hnpos]

/-- Amended C4: for every geometry and facet index where the oracle's
normal/centroid dot product is a defined number, that number is nonnegative;
the flip correction guarantees `dot(normal, centroid − domeCenter) ≥ 0`, but
not strict positivity. -/
theorem claimC4_amended :
    ∀ (geom : Option Dome.BufferGeo) (i : ℕ) (d : GK),
      Dome.oracleDot geom i = some d → 0 ≤ d.toReal := by
  intro geom i d h
  unfold Dome.oracleDot at h
  rcases ho : Dome.getFaceCentroidAndNormal geom i with _ | cn
  · rw [ho] at h
    simp at h
  · rw [ho] at h
    obtain ⟨c, n⟩ := cn
    rcases geom with _ | g
    · exact Option.noConfusion ho
    · cases g with
      | mk pos idx0 =>
        cases idx0 with
        | none => exact Option.noConfusion ho
        | some idx =>
          have ho2 : Dome.faceCore (Dome.fetchVert ⟨pos, some idx⟩ (idx.get? (3 * i)))
              (Dome.fetchVert ⟨pos, some idx⟩ (idx.get? (3 * i + 1)))
              (Dome.fetchVert ⟨pos, some idx⟩ (idx.get? (3 * i + 2))) = (c, n) := by
            injection ho with ho
          have hc : c = (Dome.faceCore _ _ _).1 := congrArg Prod.fst ho2.symm
          have hn : n = (Dome.faceCore _ _ _).2 := congrArg Prod.snd ho2.symm
          rw [hc, hn] at h
          exact faceCore_dot_nonneg _ _ _ d h

/-- The exact value of the subdivision state `subdivide`: the 12 normalized
base vertices followed by the 27 edge midpoints (the face table has only 27
distinct edges), the edges in visit order, and the edge→midpoint-index map.
`subdivide_eval` checks it by computation; pinning this intermediate stage
keeps each later evaluation small. -/
def subdivideLit : Dome.SubdivState :=
  { vertices := [
    ⟨⟨⟨(0 : ℚ), (0 : ℚ)⟩, ⟨((-1 : ℚ)/2), ((1 : ℚ)/10)⟩⟩, ⟨⟨(0 : ℚ), (0 : ℚ)⟩, ⟨(0 : ℚ), ((1 : ℚ)/5)⟩⟩, ⟨⟨(0 : ℚ), (0 : ℚ)⟩, ⟨(0 : ℚ), (0 : ℚ)⟩⟩⟩,
    ⟨⟨⟨(0 : ℚ), (0 : ℚ)⟩, ⟨((1 : ℚ)/2), ((-1 : ℚ)/10)⟩⟩, ⟨⟨(0 : ℚ), (0 : ℚ)⟩, ⟨(0 : ℚ), ((1 : ℚ)/5)⟩⟩, ⟨⟨(0 : ℚ), (0 : ℚ)⟩, ⟨(0 : ℚ), (0 : ℚ)⟩⟩⟩,
    ⟨⟨⟨(0 : ℚ), (0 : ℚ)⟩, ⟨(0 : ℚ), (0 : ℚ)⟩⟩, ⟨⟨(0 : ℚ), (0 : ℚ)⟩, ⟨((1 : ℚ)/2), ((-1 : ℚ)/10)⟩⟩, ⟨⟨(0 : ℚ), (0 : ℚ)⟩, ⟨(0 : ℚ), ((1 : ℚ)/5)⟩⟩⟩,
    ⟨⟨⟨(0 : ℚ), (0 : ℚ)⟩, ⟨(0 : ℚ), (0 : ℚ)⟩⟩, ⟨⟨(0 : ℚ), (0 : ℚ)⟩, ⟨((1 : ℚ)/2), ((-1 : ℚ)/10)⟩⟩, ⟨⟨(0 : ℚ), (0 : ℚ)⟩, ⟨(0 : ℚ), ((-1 : ℚ)/5)⟩⟩⟩,
    ⟨⟨⟨(0 : ℚ), (0 : ℚ)⟩, ⟨(0 : ℚ), ((-1 : ℚ)/5)⟩⟩, ⟨⟨(0 : ℚ), (0 : ℚ)⟩, ⟨(0 : ℚ), (0 : ℚ)⟩⟩, ⟨⟨(0 : ℚ), (0 : ℚ)⟩, ⟨((1 : ℚ)/2), ((-1 : ℚ)/10)⟩⟩⟩,
    ⟨⟨⟨(0 : ℚ), (0 : ℚ)⟩, ⟨(0 : ℚ), ((-1 : ℚ)/5)⟩⟩, ⟨⟨(0 : ℚ), (0 : ℚ)⟩, ⟨(0 : ℚ), (0 : ℚ)⟩⟩, ⟨⟨(0 : ℚ), (0 : ℚ)⟩, ⟨((-1 : ℚ)/2), ((1 : ℚ)/10)⟩⟩⟩,
    ⟨⟨⟨(0 : ℚ), (0 : ℚ)⟩, ⟨(0 : ℚ), ((1 : ℚ)/5)⟩⟩, ⟨⟨(0 : ℚ), (0 : ℚ)⟩, ⟨(0 : ℚ), (0 : ℚ)⟩⟩, ⟨⟨(0 : ℚ), (0 : ℚ)⟩, ⟨((1 : ℚ)/2), ((-1 : ℚ)/10)⟩⟩⟩,
    ⟨⟨⟨(0 : ℚ), (0 : ℚ)⟩, ⟨(0 : ℚ), ((1 : ℚ)/5)⟩⟩, ⟨⟨(0 : ℚ), (0 : ℚ)⟩, ⟨(0 : ℚ), (0 : ℚ)⟩⟩, ⟨⟨(0 : ℚ), (0 : ℚ)⟩, ⟨((-1 : ℚ)/2), ((1 : ℚ)/10)⟩⟩⟩,
    ⟨⟨⟨(0 : ℚ), (0 : ℚ)⟩, ⟨(0 : ℚ), (0 : ℚ)⟩⟩, ⟨⟨(0 : ℚ), (0 : ℚ)⟩, ⟨((-1 : ℚ)/2), ((1 : ℚ)/10)⟩⟩, ⟨⟨(0 : ℚ), (0 : ℚ)⟩, ⟨(0 : ℚ), ((1 : ℚ)/5)⟩⟩⟩,
    ⟨⟨⟨(0 : ℚ), (0 : ℚ)⟩, ⟨(0 : ℚ), (0 : ℚ)⟩⟩, ⟨⟨(0 : ℚ), (0 : ℚ)⟩, ⟨((-1 : ℚ)/2), ((1 : ℚ)/10)⟩⟩, ⟨⟨(0 : ℚ), (0 : ℚ)⟩, ⟨(0 : ℚ), ((-1 : ℚ)/5)⟩⟩⟩,
    ⟨⟨⟨(0 : ℚ), (0 : ℚ)⟩, ⟨((-1 : ℚ)/2), ((1 : ℚ)/10)⟩⟩, ⟨⟨(0 : ℚ), (0 : ℚ)⟩, ⟨(0 : ℚ), ((-1 : ℚ)/5)⟩⟩, ⟨⟨(0 : ℚ), (0 : ℚ)⟩, ⟨(0 : ℚ), (0 : ℚ)⟩⟩⟩,
    ⟨⟨⟨(0 : ℚ), (0 : ℚ)⟩, ⟨((1 : ℚ)/2), ((-1 : ℚ)/10)⟩⟩, ⟨⟨(0 : ℚ), (0 : ℚ)⟩, ⟨(0 : ℚ), ((-1 : ℚ)/5)⟩⟩, ⟨⟨(0 : ℚ), (0 : ℚ)⟩, ⟨(0 : ℚ), (0 : ℚ)⟩⟩⟩,
    ⟨⟨⟨((1 : ℚ)/4), ((-1 : ℚ)/4)⟩, ⟨(0 : ℚ), (0 : ℚ)⟩⟩, ⟨⟨((1 : ℚ)/4), ((1 : ℚ)/4)⟩, ⟨(0 : ℚ), (0 : ℚ)⟩⟩, ⟨⟨((1 : ℚ)/2), (0 : ℚ)⟩, ⟨(0 : ℚ), (0 : ℚ)⟩⟩⟩,
    ⟨⟨⟨((-1 : ℚ)/4), ((1 : ℚ)/4)⟩, ⟨(0 : ℚ), (0 : ℚ)⟩⟩, ⟨⟨((1 : ℚ)/4), ((1 : ℚ)/4)⟩, ⟨(0 : ℚ), (0 : ℚ)⟩⟩, ⟨⟨((1 : ℚ)/2), (0 : ℚ)⟩, ⟨(0 : ℚ), (0 : ℚ)⟩⟩⟩,
    ⟨⟨⟨(0 : ℚ), (0 : ℚ)⟩, ⟨(0 : ℚ), (0 : ℚ)⟩⟩, ⟨⟨(1 : ℚ), (0 : ℚ)⟩, ⟨(0 : ℚ), (0 : ℚ)⟩⟩, ⟨⟨(0 : ℚ), (0 : ℚ)⟩, ⟨(0 : ℚ), (0 : ℚ)⟩⟩⟩,
    ⟨⟨⟨((1 : ℚ)/4), ((-1 : ℚ)/4)⟩, ⟨(0 : ℚ), (0 : ℚ)⟩⟩, ⟨⟨((1 : ℚ)/4), ((1 : ℚ)/4)⟩, ⟨(0 : ℚ), (0 : ℚ)⟩⟩, ⟨⟨((-1 : ℚ)/2), (0 : ℚ)⟩, ⟨(0 : ℚ), (0 : ℚ)⟩⟩⟩,
    ⟨⟨⟨(0 : ℚ), (0 : ℚ)⟩, ⟨(0 : ℚ), (0 : ℚ)⟩⟩, ⟨⟨(1 : ℚ), (0 : ℚ)⟩, ⟨(0 : ℚ), (0 : ℚ)⟩⟩, ⟨⟨(0 : ℚ), (0 : ℚ)⟩, ⟨(0 : ℚ), (0 : ℚ)⟩⟩⟩,
    ⟨⟨⟨((-1 : ℚ)/4), ((1 : ℚ)/4)⟩, ⟨(0 : ℚ), (0 : ℚ)⟩⟩, ⟨⟨((1 : ℚ)/4), ((1 : ℚ)/4)⟩, ⟨(0 : ℚ), (0 : ℚ)⟩⟩, ⟨⟨((-1 : ℚ)/2), (0 : ℚ)⟩, ⟨(0 : ℚ), (0 : ℚ)⟩⟩⟩,
    ⟨⟨⟨((1 : ℚ)/2), (0 : ℚ)⟩, ⟨(0 : ℚ), (0 : ℚ)⟩⟩, ⟨⟨((-1 : ℚ)/4), ((1 : ℚ)/4)⟩, ⟨(0 : ℚ), (0 : ℚ)⟩⟩, ⟨⟨((1 : ℚ)/4), ((1 : ℚ)/4)⟩, ⟨(0 : ℚ), (0 : ℚ)⟩⟩⟩,
    ⟨⟨⟨((1 : ℚ)/4), ((1 : ℚ)/4)⟩, ⟨(0 : ℚ), (0 : ℚ)⟩⟩, ⟨⟨((1 : ℚ)/2), (0 : ℚ)⟩, ⟨(0 : ℚ), (0 : ℚ)⟩⟩, ⟨⟨((-1 : ℚ)/4), ((1 : ℚ)/4)⟩, ⟨(0 : ℚ), (0 : ℚ)⟩⟩⟩,
    ⟨⟨⟨((-1 : ℚ)/4), ((-1 : ℚ)/4)⟩, ⟨(0 : ℚ), (0 : ℚ)⟩⟩, ⟨⟨((1 : ℚ)/2), (0 : ℚ)⟩, ⟨(0 : ℚ), (0 : ℚ)⟩⟩, ⟨⟨((1 : ℚ)/4), ((-1 : ℚ)/4)⟩, ⟨(0 : ℚ), (0 : ℚ)⟩⟩⟩,
    ⟨⟨⟨((-1 : ℚ)/2), (0 : ℚ)⟩, ⟨(0 : ℚ), (0 : ℚ)⟩⟩, ⟨⟨((-1 : ℚ)/4), ((1 : ℚ)/4)⟩, ⟨(0 : ℚ), (0 : ℚ)⟩⟩, ⟨⟨((1 : ℚ)/4), ((1 : ℚ)/4)⟩, ⟨(0 : ℚ), (0 : ℚ)⟩⟩⟩,
    ⟨⟨⟨((1 : ℚ)/4), ((1 : ℚ)/4)⟩, ⟨(0 : ℚ), (0 : ℚ)⟩⟩, ⟨⟨((1 : ℚ)/2), (0 : ℚ)⟩, ⟨(0 : ℚ), (0 : ℚ)⟩⟩, ⟨⟨((1 : ℚ)/4), ((-1 : ℚ)/4)⟩, ⟨(0 : ℚ), (0 : ℚ)⟩⟩⟩,
    ⟨⟨⟨((1 : ℚ)/2), (0 : ℚ)⟩, ⟨(0 : ℚ), (0 : ℚ)⟩⟩, ⟨⟨((-1 : ℚ)/4), ((1 : ℚ)/4)⟩, ⟨(0 : ℚ), (0 : ℚ)⟩⟩, ⟨⟨((-1 : ℚ)/4), ((-1 : ℚ)/4)⟩, ⟨(0 : ℚ), (0 : ℚ)⟩⟩⟩,
    ⟨⟨⟨(-1 : ℚ), (0 : ℚ)⟩, ⟨(0 : ℚ), (0 : ℚ)⟩⟩, ⟨⟨(0 : ℚ), (0 : ℚ)⟩, ⟨(0 : ℚ), (0 : ℚ)⟩⟩, ⟨⟨(0 : ℚ), (0 : ℚ)⟩, ⟨(0 : ℚ), (0 : ℚ)⟩⟩⟩,
    ⟨⟨⟨((-1 : ℚ)/4), ((-1 : ℚ)/4)⟩, ⟨(0 : ℚ), (0 : ℚ)⟩⟩, ⟨⟨((1 : ℚ)/2), (0 : ℚ)⟩, ⟨(0 : ℚ), (0 : ℚ)⟩⟩, ⟨⟨((1 : ℚ)/4), ((-1 : ℚ)/4)⟩, ⟨(0 : ℚ), (0 : ℚ)⟩⟩⟩,
    ⟨⟨⟨((-1 : ℚ)/4), ((-1 : ℚ)/4)⟩, ⟨(0 : ℚ), (0 : ℚ)⟩⟩, ⟨⟨((1 : ℚ)/2), (0 : ℚ)⟩, ⟨(0 : ℚ), (0 : ℚ)⟩⟩, ⟨⟨((-1 : ℚ)/4), ((1 : ℚ)/4)⟩, ⟨(0 : ℚ), (0 : ℚ)⟩⟩⟩,
    ⟨⟨⟨(0 : ℚ), (0 : ℚ)⟩, ⟨(0 : ℚ), (0 : ℚ)⟩⟩, ⟨⟨(0 : ℚ), (0 : ℚ)⟩, ⟨(0 : ℚ), (0 : ℚ)⟩⟩, ⟨⟨(0 : ℚ), (0 : ℚ)⟩, ⟨(0 : ℚ), (0 : ℚ)⟩⟩⟩,
    ⟨⟨⟨((1 : ℚ)/4), ((-1 : ℚ)/4)⟩, ⟨(0 : ℚ), (0 : ℚ)⟩⟩, ⟨⟨((1 : ℚ)/4), ((1 : ℚ)/4)⟩, ⟨(0 : ℚ), (0 : ℚ)⟩⟩, ⟨⟨((-1 : ℚ)/2), (0 : ℚ)⟩, ⟨(0 : ℚ), (0 : ℚ)⟩⟩⟩,
    ⟨⟨⟨(1 : ℚ), (0 : ℚ)⟩, ⟨(0 : ℚ), (0 : ℚ)⟩⟩, ⟨⟨(0 : ℚ), (0 : ℚ)⟩, ⟨(0 : ℚ), (0 : ℚ)⟩⟩, ⟨⟨(0 : ℚ), (0 : ℚ)⟩, ⟨(0 : ℚ), (0 : ℚ)⟩⟩⟩,
    ⟨⟨⟨(0 : ℚ), (0 : ℚ)⟩, ⟨(0 : ℚ), (0 : ℚ)⟩⟩, ⟨⟨(0 : ℚ), (0 : ℚ)⟩, ⟨(0 : ℚ), (0 : ℚ)⟩⟩, ⟨⟨(0 : ℚ), (0 : ℚ)⟩, ⟨(0 : ℚ), (0 : ℚ)⟩⟩⟩,
    ⟨⟨⟨((1 : ℚ)/4), ((1 : ℚ)/4)⟩, ⟨(0 : ℚ), (0 : ℚ)⟩⟩, ⟨⟨((1 : ℚ)/2), (0 : ℚ)⟩, ⟨(0 : ℚ), (0 : ℚ)⟩⟩, ⟨⟨((-1 : ℚ)/4), ((1 : ℚ)/4)⟩, ⟨(0 : ℚ), (0 : ℚ)⟩⟩⟩,
    ⟨⟨⟨(0 : ℚ), (0 : ℚ)⟩, ⟨(0 : ℚ), (0 : ℚ)⟩⟩, ⟨⟨(0 : ℚ), (0 : ℚ)⟩, ⟨(0 : ℚ), (0 : ℚ)⟩⟩, ⟨⟨(1 : ℚ), (0 : ℚ)⟩, ⟨(0 : ℚ), (0 : ℚ)⟩⟩⟩,
    ⟨⟨⟨(0 : ℚ), (0 : ℚ)⟩, ⟨(0 : ℚ), (0 : ℚ)⟩⟩, ⟨⟨(-1 : ℚ), (0 : ℚ)⟩, ⟨(0 : ℚ), (0 : ℚ)⟩⟩, ⟨⟨(0 : ℚ), (0 : ℚ)⟩, ⟨(0 : ℚ), (0 : ℚ)⟩⟩⟩,
    ⟨⟨⟨((1 : ℚ)/4), ((-1 : ℚ)/4)⟩, ⟨(0 : ℚ), (0 : ℚ)⟩⟩, ⟨⟨((-1 : ℚ)/4), ((-1 : ℚ)/4)⟩, ⟨(0 : ℚ), (0 : ℚ)⟩⟩, ⟨⟨((-1 : ℚ)/2), (0 : ℚ)⟩, ⟨(0 : ℚ), (0 : ℚ)⟩⟩⟩,
    ⟨⟨⟨((1 : ℚ)/4), ((-1 : ℚ)/4)⟩, ⟨(0 : ℚ), (0 : ℚ)⟩⟩, ⟨⟨((-1 : ℚ)/4), ((-1 : ℚ)/4)⟩, ⟨(0 : ℚ), (0 : ℚ)⟩⟩, ⟨⟨((1 : ℚ)/2), (0 : ℚ)⟩, ⟨(0 : ℚ), (0 : ℚ)⟩⟩⟩,
    ⟨⟨⟨(0 : ℚ), (0 : ℚ)⟩, ⟨(0 : ℚ), (0 : ℚ)⟩⟩, ⟨⟨(-1 : ℚ), (0 : ℚ)⟩, ⟨(0 : ℚ), (0 : ℚ)⟩⟩, ⟨⟨(0 : ℚ), (0 : ℚ)⟩, ⟨(0 : ℚ), (0 : ℚ)⟩⟩⟩,
    ⟨⟨⟨((-1 : ℚ)/4), ((1 : ℚ)/4)⟩, ⟨(0 : ℚ), (0 : ℚ)⟩⟩, ⟨⟨((-1 : ℚ)/4), ((-1 : ℚ)/4)⟩, ⟨(0 : ℚ), (0 : ℚ)⟩⟩, ⟨⟨((1 : ℚ)/2), (0 : ℚ)⟩, ⟨(0 : ℚ), (0 : ℚ)⟩⟩⟩,
    ⟨⟨⟨((-1 : ℚ)/4), ((1 : ℚ)/4)⟩, ⟨(0 : ℚ), (0 : ℚ)⟩⟩, ⟨⟨((-1 : ℚ)/4), ((-1 : ℚ)/4)⟩, ⟨(0 : ℚ), (0 : ℚ)⟩⟩, ⟨⟨((-1 : ℚ)/2), (0 : ℚ)⟩, ⟨(0 : ℚ), (0 : ℚ)⟩⟩⟩]
    edges := [(0, 2),
 (1, 2),
 (0, 1),
 (0, 3),
 (2, 3),
 (1, 3),
 (2, 6),
 (1, 6),
 (3, 4),
 (2, 4),
 (1, 7),
 (3, 7),
 (4, 5),
 (0, 5),
 (0, 4),
 (5, 6),
 (1, 5),
 (6, 7),
 (4, 7),
 (2, 7),
 (4, 6),
 (8, 9),
 (9, 10),
 (8, 10),
 (10, 11),
 (8, 11),
 (9, 11)]
    subMap := [((0, 2), 12),
 ((1, 2), 13),
 ((0, 1), 14),
 ((0, 3), 15),
 ((2, 3), 16),
 ((1, 3), 17),
 ((2, 6), 18),
 ((1, 6), 19),
 ((3, 4), 20),
 ((2, 4), 21),
 ((1, 7), 22),
 ((3, 7), 23),
 ((4, 5), 24),
 ((0, 5), 25),
 ((0, 4), 26),
 ((5, 6), 27),
 ((1, 5), 28),
 ((6, 7), 29),
 ((4, 7), 30),
 ((2, 7), 31),
 ((4, 6), 32),
 ((8, 9), 33),
 ((9, 10), 34),
 ((8, 10), 35),
 ((10, 11), 36),
 ((8, 11), 37),
 ((9, 11), 38)] }

theorem subdivide_eval : Dome.subdivide = subdivideLit := by decide

/-- The 80 subdivided full-sphere faces, checked by computation from the
pinned subdivision state. -/
def subdividedFacesLit : List (ℕ × ℕ × ℕ) :=
  [(0, 12, 14),
 (2, 13, 12),
 (1, 14, 13),
 (12, 13, 14),
 (0, 15, 12),
 (3, 16, 15),
 (2, 12, 16),
 (15, 16, 12),
 (0, 14, 15),
 (1, 17, 14),
 (3, 15, 17),
 (14, 17, 15),
 (1, 13, 19),
 (2, 18, 13),
 (6, 19, 18),
 (13, 18, 19),
 (2, 16, 21),
 (3, 20, 16),
 (4, 21, 20),
 (16, 20, 21),
 (3, 17, 23),
 (1, 22, 17),
 (7, 23, 22),
 (17, 22, 23),
 (4, 24, 26),
 (5, 25, 24),
 (0, 26, 25),
 (24, 25, 26),
 (5, 27, 28),
 (6, 19, 27),
 (1, 28, 19),
 (27, 19, 28),
 (6, 29, 19),
 (7, 22, 29),
 (1, 19, 22),
 (29, 22, 19),
 (7, 30, 23),
 (4, 20, 30),
 (3, 23, 20),
 (30, 20, 23),
 (4, 26, 24),
 (0, 25, 26),
 (5, 24, 25),
 (26, 25, 24),
 (5, 28, 25),
 (1, 14, 28),
 (0, 25, 14),
 (28, 14, 25),
 (6, 18, 29),
 (2, 31, 18),
 (7, 29, 31),
 (18, 31, 29),
 (7, 23, 30),
 (3, 20, 23),
 (4, 30, 20),
 (23, 20, 30),
 (2, 21, 18),
 (4, 32, 21),
 (6, 18, 32),
 (21, 32, 18),
 (4, 30, 32),
 (7, 29, 30),
 (6, 32, 29),
 (30, 29, 32),
 (8, 33, 35),
 (9, 34, 33),
 (10, 35, 34),
 (33, 34, 35),
 (8, 35, 37),
 (10, 36, 35),
 (11, 37, 36),
 (35, 36, 37),
 (9, 38, 34),
 (11, 36, 38),
 (10, 34, 36),
 (38, 36, 34),
 (8, 37, 33),
 (11, 38, 37),
 (9, 33, 38),
 (37, 38, 33)]

theorem subdividedFaces_eval : Dome.subdividedFaces = subdividedFacesLit := by
  unfold Dome.subdividedFaces
  rw [subdivide_eval]
  decide

/-- The value of `method2Mesh`, written out; `method2Mesh_eval` checks by
computation that the construction produces exactly this list of 29 vertices
and 64 triangles. -/
def method2MeshLit : List V3 × List (ℕ × ℕ × ℕ) :=
  ([⟨⟨⟨(0 : ℚ), (0 : ℚ)⟩, ⟨(-1 : ℚ), ((1 : ℚ)/5)⟩⟩, ⟨⟨(0 : ℚ), (0 : ℚ)⟩, ⟨(0 : ℚ), ((2 : ℚ)/5)⟩⟩, ⟨⟨(0 : ℚ), (0 : ℚ)⟩, ⟨(0 : ℚ), (0 : ℚ)⟩⟩⟩,
    ⟨⟨⟨((1 : ℚ)/2), ((-1 : ℚ)/2)⟩, ⟨(0 : ℚ), (0 : ℚ)⟩⟩, ⟨⟨((1 : ℚ)/2), ((1 : ℚ)/2)⟩, ⟨(0 : ℚ), (0 : ℚ)⟩⟩, ⟨⟨(1 : ℚ), (0 : ℚ)⟩, ⟨(0 : ℚ), (0 : ℚ)⟩⟩⟩,
    ⟨⟨⟨(0 : ℚ), (0 : ℚ)⟩, ⟨(0 : ℚ), (0 : ℚ)⟩⟩, ⟨⟨(2 : ℚ), (0 : ℚ)⟩, ⟨(0 : ℚ), (0 : ℚ)⟩⟩, ⟨⟨(0 : ℚ), (0 : ℚ)⟩, ⟨(0 : ℚ), (0 : ℚ)⟩⟩⟩,
    ⟨⟨⟨(0 : ℚ), (0 : ℚ)⟩, ⟨(0 : ℚ), (0 : ℚ)⟩⟩, ⟨⟨(0 : ℚ), (0 : ℚ)⟩, ⟨(1 : ℚ), ((-1 : ℚ)/5)⟩⟩, ⟨⟨(0 : ℚ), (0 : ℚ)⟩, ⟨(0 : ℚ), ((2 : ℚ)/5)⟩⟩⟩,
    ⟨⟨⟨((-1 : ℚ)/2), ((1 : ℚ)/2)⟩, ⟨(0 : ℚ), (0 : ℚ)⟩⟩, ⟨⟨((1 : ℚ)/2), ((1 : ℚ)/2)⟩, ⟨(0 : ℚ), (0 : ℚ)⟩⟩, ⟨⟨(1 : ℚ), (0 : ℚ)⟩, ⟨(0 : ℚ), (0 : ℚ)⟩⟩⟩,
    ⟨⟨⟨(0 : ℚ), (0 : ℚ)⟩, ⟨(1 : ℚ), ((-1 : ℚ)/5)⟩⟩, ⟨⟨(0 : ℚ), (0 : ℚ)⟩, ⟨(0 : ℚ), ((2 : ℚ)/5)⟩⟩, ⟨⟨(0 : ℚ), (0 : ℚ)⟩, ⟨(0 : ℚ), (0 : ℚ)⟩⟩⟩,
    ⟨⟨⟨((1 : ℚ)/2), ((-1 : ℚ)/2)⟩, ⟨(0 : ℚ), (0 : ℚ)⟩⟩, ⟨⟨((1 : ℚ)/2), ((1 : ℚ)/2)⟩, ⟨(0 : ℚ), (0 : ℚ)⟩⟩, ⟨⟨(-1 : ℚ), (0 : ℚ)⟩, ⟨(0 : ℚ), (0 : ℚ)⟩⟩⟩,
    ⟨⟨⟨(0 : ℚ), (0 : ℚ)⟩, ⟨(0 : ℚ), (0 : ℚ)⟩⟩, ⟨⟨(0 : ℚ), (0 : ℚ)⟩, ⟨(1 : ℚ), ((-1 : ℚ)/5)⟩⟩, ⟨⟨(0 : ℚ), (0 : ℚ)⟩, ⟨(0 : ℚ), ((-2 : ℚ)/5)⟩⟩⟩,
    ⟨⟨⟨(0 : ℚ), (0 : ℚ)⟩, ⟨(0 : ℚ), (0 : ℚ)⟩⟩, ⟨⟨(2 : ℚ), (0 : ℚ)⟩, ⟨(0 : ℚ), (0 : ℚ)⟩⟩, ⟨⟨(0 : ℚ), (0 : ℚ)⟩, ⟨(0 : ℚ), (0 : ℚ)⟩⟩⟩,
    ⟨⟨⟨((-1 : ℚ)/2), ((1 : ℚ)/2)⟩, ⟨(0 : ℚ), (0 : ℚ)⟩⟩, ⟨⟨((1 : ℚ)/2), ((1 : ℚ)/2)⟩, ⟨(0 : ℚ), (0 : ℚ)⟩⟩, ⟨⟨(-1 : ℚ), (0 : ℚ)⟩, ⟨(0 : ℚ), (0 : ℚ)⟩⟩⟩,
    ⟨⟨⟨((1 : ℚ)/2), ((1 : ℚ)/2)⟩, ⟨(0 : ℚ), (0 : ℚ)⟩⟩, ⟨⟨(1 : ℚ), (0 : ℚ)⟩, ⟨(0 : ℚ), (0 : ℚ)⟩⟩, ⟨⟨((-1 : ℚ)/2), ((1 : ℚ)/2)⟩, ⟨(0 : ℚ), (0 : ℚ)⟩⟩⟩,
    ⟨⟨⟨(1 : ℚ), (0 : ℚ)⟩, ⟨(0 : ℚ), (0 : ℚ)⟩⟩, ⟨⟨((-1 : ℚ)/2), ((1 : ℚ)/2)⟩, ⟨(0 : ℚ), (0 : ℚ)⟩⟩, ⟨⟨((1 : ℚ)/2), ((1 : ℚ)/2)⟩, ⟨(0 : ℚ), (0 : ℚ)⟩⟩⟩,
    ⟨⟨⟨(0 : ℚ), (0 : ℚ)⟩, ⟨(0 : ℚ), ((2 : ℚ)/5)⟩⟩, ⟨⟨(0 : ℚ), (0 : ℚ)⟩, ⟨(0 : ℚ), (0 : ℚ)⟩⟩, ⟨⟨(0 : ℚ), (0 : ℚ)⟩, ⟨(1 : ℚ), ((-1 : ℚ)/5)⟩⟩⟩,
    ⟨⟨⟨(-1 : ℚ), (0 : ℚ)⟩, ⟨(0 : ℚ), (0 : ℚ)⟩⟩, ⟨⟨((-1 : ℚ)/2), ((1 : ℚ)/2)⟩, ⟨(0 : ℚ), (0 : ℚ)⟩⟩, ⟨⟨((1 : ℚ)/2), ((1 : ℚ)/2)⟩, ⟨(0 : ℚ), (0 : ℚ)⟩⟩⟩,
    ⟨⟨⟨((-1 : ℚ)/2), ((-1 : ℚ)/2)⟩, ⟨(0 : ℚ), (0 : ℚ)⟩⟩, ⟨⟨(1 : ℚ), (0 : ℚ)⟩, ⟨(0 : ℚ), (0 : ℚ)⟩⟩, ⟨⟨((1 : ℚ)/2), ((-1 : ℚ)/2)⟩, ⟨(0 : ℚ), (0 : ℚ)⟩⟩⟩,
    ⟨⟨⟨(0 : ℚ), (0 : ℚ)⟩, ⟨(0 : ℚ), ((-2 : ℚ)/5)⟩⟩, ⟨⟨(0 : ℚ), (0 : ℚ)⟩, ⟨(0 : ℚ), (0 : ℚ)⟩⟩, ⟨⟨(0 : ℚ), (0 : ℚ)⟩, ⟨(1 : ℚ), ((-1 : ℚ)/5)⟩⟩⟩,
    ⟨⟨⟨(1 : ℚ), (0 : ℚ)⟩, ⟨(0 : ℚ), (0 : ℚ)⟩⟩, ⟨⟨((-1 : ℚ)/2), ((1 : ℚ)/2)⟩, ⟨(0 : ℚ), (0 : ℚ)⟩⟩, ⟨⟨((-1 : ℚ)/2), ((-1 : ℚ)/2)⟩, ⟨(0 : ℚ), (0 : ℚ)⟩⟩⟩,
    ⟨⟨⟨((1 : ℚ)/2), ((1 : ℚ)/2)⟩, ⟨(0 : ℚ), (0 : ℚ)⟩⟩, ⟨⟨(1 : ℚ), (0 : ℚ)⟩, ⟨(0 : ℚ), (0 : ℚ)⟩⟩, ⟨⟨((1 : ℚ)/2), ((-1 : ℚ)/2)⟩, ⟨(0 : ℚ), (0 : ℚ)⟩⟩⟩,
    ⟨⟨⟨(0 : ℚ), (0 : ℚ)⟩, ⟨(0 : ℚ), ((2 : ℚ)/5)⟩⟩, ⟨⟨(0 : ℚ), (0 : ℚ)⟩, ⟨(0 : ℚ), (0 : ℚ)⟩⟩, ⟨⟨(0 : ℚ), (0 : ℚ)⟩, ⟨(-1 : ℚ), ((1 : ℚ)/5)⟩⟩⟩,
    ⟨⟨⟨(-2 : ℚ), (0 : ℚ)⟩, ⟨(0 : ℚ), (0 : ℚ)⟩⟩, ⟨⟨(0 : ℚ), (0 : ℚ)⟩, ⟨(0 : ℚ), (0 : ℚ)⟩⟩, ⟨⟨(0 : ℚ), (0 : ℚ)⟩, ⟨(0 : ℚ), (0 : ℚ)⟩⟩⟩,
    ⟨⟨⟨((-1 : ℚ)/2), ((-1 : ℚ)/2)⟩, ⟨(0 : ℚ), (0 : ℚ)⟩⟩, ⟨⟨(1 : ℚ), (0 : ℚ)⟩, ⟨(0 : ℚ), (0 : ℚ)⟩⟩, ⟨⟨((-1 : ℚ)/2), ((1 : ℚ)/2)⟩, ⟨(0 : ℚ), (0 : ℚ)⟩⟩⟩,
    ⟨⟨⟨(0 : ℚ), (0 : ℚ)⟩, ⟨(0 : ℚ), ((-2 : ℚ)/5)⟩⟩, ⟨⟨(0 : ℚ), (0 : ℚ)⟩, ⟨(0 : ℚ), (0 : ℚ)⟩⟩, ⟨⟨(0 : ℚ), (0 : ℚ)⟩, ⟨(-1 : ℚ), ((1 : ℚ)/5)⟩⟩⟩,
    ⟨⟨⟨((-1 : ℚ)/2), ((-1 : ℚ)/2)⟩, ⟨(0 : ℚ), (0 : ℚ)⟩⟩, ⟨⟨(1 : ℚ), (0 : ℚ)⟩, ⟨(0 : ℚ), (0 : ℚ)⟩⟩, ⟨⟨((1 : ℚ)/2), ((-1 : ℚ)/2)⟩, ⟨(0 : ℚ), (0 : ℚ)⟩⟩⟩,
    ⟨⟨⟨(0 : ℚ), (0 : ℚ)⟩, ⟨(0 : ℚ), (0 : ℚ)⟩⟩, ⟨⟨(0 : ℚ), (0 : ℚ)⟩, ⟨(0 : ℚ), (0 : ℚ)⟩⟩, ⟨⟨(0 : ℚ), (0 : ℚ)⟩, ⟨(0 : ℚ), (0 : ℚ)⟩⟩⟩,
    ⟨⟨⟨((1 : ℚ)/2), ((-1 : ℚ)/2)⟩, ⟨(0 : ℚ), (0 : ℚ)⟩⟩, ⟨⟨((1 : ℚ)/2), ((1 : ℚ)/2)⟩, ⟨(0 : ℚ), (0 : ℚ)⟩⟩, ⟨⟨(-1 : ℚ), (0 : ℚ)⟩, ⟨(0 : ℚ), (0 : ℚ)⟩⟩⟩,
    ⟨⟨⟨(2 : ℚ), (0 : ℚ)⟩, ⟨(0 : ℚ), (0 : ℚ)⟩⟩, ⟨⟨(0 : ℚ), (0 : ℚ)⟩, ⟨(0 : ℚ), (0 : ℚ)⟩⟩, ⟨⟨(0 : ℚ), (0 : ℚ)⟩, ⟨(0 : ℚ), (0 : ℚ)⟩⟩⟩,
    ⟨⟨⟨(0 : ℚ), (0 : ℚ)⟩, ⟨(0 : ℚ), (0 : ℚ)⟩⟩, ⟨⟨(0 : ℚ), (0 : ℚ)⟩, ⟨(0 : ℚ), (0 : ℚ)⟩⟩, ⟨⟨(0 : ℚ), (0 : ℚ)⟩, ⟨(0 : ℚ), (0 : ℚ)⟩⟩⟩,
    ⟨⟨⟨((1 : ℚ)/2), ((1 : ℚ)/2)⟩, ⟨(0 : ℚ), (0 : ℚ)⟩⟩, ⟨⟨(1 : ℚ), (0 : ℚ)⟩, ⟨(0 : ℚ), (0 : ℚ)⟩⟩, ⟨⟨((-1 : ℚ)/2), ((1 : ℚ)/2)⟩, ⟨(0 : ℚ), (0 : ℚ)⟩⟩⟩,
    ⟨⟨⟨(0 : ℚ), (0 : ℚ)⟩, ⟨(0 : ℚ), (0 : ℚ)⟩⟩, ⟨⟨(0 : ℚ), (0 : ℚ)⟩, ⟨(0 : ℚ), (0 : ℚ)⟩⟩, ⟨⟨(2 : ℚ), (0 : ℚ)⟩, ⟨(0 : ℚ), (0 : ℚ)⟩⟩⟩],
   [(0, 1, 2),
    (3, 4, 1),
    (5, 2, 4),
    (1, 4, 2),
    (0, 6, 1),
    (7, 8, 6),
    (3, 1, 8),
    (6, 8, 1),
    (0, 2, 6),
    (5, 9, 2),
    (7, 6, 9),
    (2, 9, 6),
    (5, 4, 10),
    (3, 11, 4),
    (12, 10, 11),
    (4, 11, 10),
    (3, 8, 13),
    (7, 14, 8),
    (15, 13, 14),
    (8, 14, 13),
    (7, 9, 16),
    (5, 17, 9),
    (18, 16, 17),
    (9, 17, 16),
    (15, 19, 20),
    (21, 22, 19),
    (0, 20, 22),
    (19, 22, 20),
    (21, 23, 24),
    (12, 10, 23),
    (5, 24, 10),
    (23, 10, 24),
    (12, 25, 10),
    (18, 17, 25),
    (5, 10, 17),
    (25, 17, 10),
    (18, 26, 16),
    (15, 14, 26),
    (7, 16, 14),
    (26, 14, 16),
    (15, 20, 19),
    (0, 22, 20),
    (21, 19, 22),
    (20, 22, 19),
    (21, 24, 22),
    (5, 2, 24),
    (0, 22, 2),
    (24, 2, 22),
    (12, 11, 25),
    (3, 27, 11),
    (18, 25, 27),
    (11, 27, 25),
    (18, 16, 26),
    (7, 14, 16),
    (15, 26, 14),
    (16, 14, 26),
    (3, 13, 11),
    (15, 28, 13),
    (12, 11, 28),
    (13, 28, 11),
    (15, 26, 28),
    (18, 25, 26),
    (12, 28, 25),
    (26, 25, 28)])

theorem method2Mesh_eval : Dome.method2Mesh = method2MeshLit := by
  have h : Dome.method2Mesh =
      (let verts := subdivideLit.vertices.map (V3.smul Dome.domeRadius)
       let ex := Dome.extractHemisphere verts subdividedFacesLit
       (ex.verts, ex.faces)) := by
    unfold Dome.method2Mesh Dome.create2VGeodesicDomeMethod2
    rw [subdivide_eval, subdividedFaces_eval]
  rw [h]
  decide

/-- C2, what the code actually does: for every radius, the full-sphere stage
of Strategy B has 39 vertices (12 base vertices plus 27 edge midpoints — the
face table has only 27 distinct edges) and 80 triangles, not the 42 vertices
of a true one-level icosahedral subdivision. -/
theorem claimC2_actual_full_sphere_counts :
    ∀ radius : GK,
      (Dome.subdivide.vertices.map (V3.smul radius)).length = 39 ∧
      Dome.subdividedFaces.length = 80 := by
  have h1 : Dome.subdivide.vertices.length = 39 := by
    rw [subdivide_eval]; rfl
  have h2 : Dome.subdividedFaces.length = 80 := by
    rw [subdividedFaces_eval]; rfl
  intro radius
  exact ⟨by rw [List.length_map]; exact h1, h2⟩

/-- Counterexample to C1: the Strategy B mesh the application builds (radius
2) declares 29 vertices but the positions referenced by its faces take only
24 distinct values (five coincident pairs, two of them the exact origin), so
the number of distinct positions does not equal the declared vertex count. -/
theorem claimC1_counterexample :
    Dome.method2Mesh.1.dedup.length = 24 ∧ Dome.method2Mesh.1.length = 29 ∧
      (24 : ℕ) ≠ 29 := by
  rw [method2Mesh_eval]
  exact ⟨by decide, by decide, by norm_num⟩

theorem method1_foldl_length (soup : List (V3 × V3 × V3)) :
    ∀ st : List V3 × List (ℕ × ℕ × ℕ), st.1.length = 3 * st.2.length →
      (soup.foldl Dome.method1Step st).1.length =
        3 * (soup.foldl Dome.method1Step st).2.length := by
  induction soup with
  | nil => intro st h; exact h
  | cons t rest ih =>
    intro st h
    simp only [List.foldl_cons]
    apply ih
    unfold Dome.method1Step
    split_ifs
    · simp only [List.length_append, List.length_cons, List.length_nil]
      omega
    · exact h

/-- Amended C1: Strategy B deduplicates by original vertex index but not by
position — at the application's radius the 29 declared vertices carry 24
distinct positions (exactly five coincident pairs); and Strategy A shares
nothing: it emits three fresh vertices per retained face, so its vertex count
is always three times its face count and no two faces reference a common
vertex index. -/
theorem claimC1_amended :
    (Dome.method2Mesh.1.dedup.length + 5 = Dome.method2Mesh.1.length) ∧
    (∀ soup : List (V3 × V3 × V3),
      (Dome.create2VGeodesicDomeMethod1Core soup).1.length =
        3 * (Dome.create2VGeodesicDomeMethod1Core soup).2.length) := by
  constructor
  · rw [method2Mesh_eval]
    decide
  · intro soup
    exact method1_foldl_length soup ([], []) (by simp)

theorem method2Geometry_eval :
    Dome.method2Geometry = Dome.completeGeometryOf method2MeshLit := by
  unfold Dome.method2Geometry
  rw [method2Mesh_eval]

/-- Counterexample to C4: on the Strategy B mesh the application builds,
facet 28 has its normal exactly orthogonal to its centroid direction — the
oracle's `dot(normal, centroid − domeCenter)` is exactly 0, not > 0. -/
theorem claimC4_counterexample :
    Dome.oracleDot (some Dome.method2Geometry) 28 = some 0 ∧
      ¬ (0 < (0 : GK).toReal) := by
  constructor
  · rw [method2Geometry_eval]
    decide
  · simp

/-- Closed instance of the amended C4: on a concrete one-triangle geometry
the oracle's dot value is 1, and `claimC4_amended` applies. -/
theorem claimC4_amended_witness :
    Dome.oracleDot (some Dome.tinyGeo) 0 = some (Dome.kq 1) ∧
      0 ≤ (Dome.kq 1).toReal :=
  ⟨by decide, claimC4_amended (some Dome.tinyGeo) 0 (Dome.kq 1) (by decide)⟩

/-- Counterexample to C5: facet index 64 is out of range of the Strategy B
mesh (its faces are 0..63), yet the oracle does not fail — it returns a
non-null pair (whose components are the NaNs bred by the unchecked
out-of-range reads). -/
theorem claimC5_counterexample :
    (Dome.getFaceCentroidAndNormal (some Dome.method2Geometry) 64).isSome = true ∧
      Dome.method2Mesh.2.length = 64 := by
  constructor
  · rw [method2Geometry_eval]
    decide
  · rw [method2Mesh_eval]
    decide

/-! Hemisphere-extraction correctness (claim C3): the faces an extraction
returns are, position for position and in order, exactly the input faces all
of whose vertices pass the height test, and every returned vertex is
referenced by a returned face. -/

/-- The retention test of one face, as the source writes it (all three
vertices at height ≥ −tolerance). -/
def keepFaceB (vs : List V3) (f : ℕ × ℕ × ℕ) : Bool :=
  Dome.hemiKeep (vs.getD f.1 V3.zero) && Dome.hemiKeep (vs.getD f.2.1 V3.zero) &&
    Dome.hemiKeep (vs.getD f.2.2 V3.zero)

/-- The positions a face references. -/
def facePos (vs : List V3) (f : ℕ × ℕ × ℕ) : V3 × V3 × V3 :=
  (vs.getD f.1 V3.zero, vs.getD f.2.1 V3.zero, vs.getD f.2.2 V3.zero)

/-- Invariant of the Method 2 extraction state: the index map is bound by and
faithful to the vertex list, faces are in bounds, and every vertex is
referenced by some face. -/
def ExtractInv (vs : List V3) (st : Dome.ExtractState) : Prop :=
  (∀ p ∈ st.vmap, p.2 < st.verts.length ∧
    st.verts.getD p.2 V3.zero = vs.getD p.1 V3.zero) ∧
  (∀ f ∈ st.faces,
    f.1 < st.verts.length ∧ f.2.1 < st.verts.length ∧ f.2.2 < st.verts.length) ∧
  (∀ j, j < st.verts.length →
    ∃ f ∈ st.faces, f.1 = j ∨ f.2.1 = j ∨ f.2.2 = j)

theorem getD_extend {l l2 : List V3} (h : l <+: l2) {k : ℕ} (hk : k < l.length) :
    l2.getD k V3.zero = l.getD k V3.zero := by
  obtain ⟨t, rfl⟩ := h
  exact List.getD_append l t V3.zero k hk

theorem mapVertex_eq_found (vs : List V3) (st : Dome.ExtractState) (i : ℕ)
    (p : ℕ × ℕ) (hf : st.vmap.find? (fun q => q.1 == i) = some p) :
    Dome.mapVertex vs st i = (st, p.2) := by
  unfold Dome.mapVertex
  rw [hf]

theorem mapVertex_eq_new (vs : List V3) (st : Dome.ExtractState) (i : ℕ)
    (hf : st.vmap.find? (fun q => q.1 == i) = none) :
    Dome.mapVertex vs st i =
      (⟨st.verts ++ [vs.getD i V3.zero], st.vmap ++ [(i, st.verts.length)], st.faces⟩,
       st.verts.length) := by
  unfold Dome.mapVertex
  rw [hf]

theorem mapVertex_spec (vs : List V3) (st : Dome.ExtractState) (i : ℕ)
    (hmap : ∀ p ∈ st.vmap, p.2 < st.verts.length ∧
      st.verts.getD p.2 V3.zero = vs.getD p.1 V3.zero) :
    (st.verts <+: (Dome.mapVertex vs st i).1.verts) ∧
    (Dome.mapVertex vs st i).1.faces = st.faces ∧
    (Dome.mapVertex vs st i).2 < (Dome.mapVertex vs st i).1.verts.length ∧
    (Dome.mapVertex vs st i).1.verts.getD (Dome.mapVertex vs st i).2 V3.zero =
      vs.getD i V3.zero ∧
    (∀ p ∈ (Dome.mapVertex vs st i).1.vmap,
      p.2 < (Dome.mapVertex vs st i).1.verts.length ∧
      (Dome.mapVertex vs st i).1.verts.getD p.2 V3.zero = vs.getD p.1 V3.zero) ∧
    (∀ j, st.verts.length ≤ j → j < (Dome.mapVertex vs st i).1.verts.length →
      j = (Dome.mapVertex vs st i).2) := by
  rcases hf : st.vmap.find? (fun q => q.1 == i) with _ | p
  · rw [mapVertex_eq_new vs st i hf]
    have hlen : (st.verts ++ [vs.getD i V3.zero]).length = st.verts.length + 1 := by
      simp
    refine ⟨List.prefix_append _ _, rfl, ?_, ?_, ?_, ?_⟩
    · show st.verts.length < (st.verts ++ [vs.getD i V3.zero]).length
      rw [hlen]; omega
    · show (st.verts ++ [vs.getD i V3.zero]).getD st.verts.length V3.zero = _
      rw [List.getD_append_right st.verts _ V3.zero st.verts.length le_rfl]
      simp
    · intro p hp
      rcases List.mem_append.mp hp with hp | hp
      · obtain ⟨hb, hv⟩ := hmap p hp
        refine ⟨by show p.2 < (st.verts ++ _).length; rw [hlen]; omega, ?_⟩
        show (st.verts ++ [vs.getD i V3.zero]).getD p.2 V3.zero = _
        rw [List.getD_append st.verts _ V3.zero p.2 hb]
        exact hv
      · have hpv : p = (i, st.verts.length) := by simpa using hp
        subst hpv
        refine ⟨by show st.verts.length < (st.verts ++ _).length; rw [hlen]; omega, ?_⟩
        show (st.verts ++ [vs.getD i V3.zero]).getD st.verts.length V3.zero = _
        rw [List.getD_append_right st.verts _ V3.zero st.verts.length le_rfl]
        simp
    · intro j h1 h2
      have h2b : j < st.verts.length + 1 := by rw [← hlen]; exact h2
      show j = st.verts.length
      omega
  · rw [mapVertex_eq_found vs st i p hf]
    have hpmem := List.mem_of_find?_eq_some hf
    have hpi : p.1 = i := by simpa using List.find?_some hf
    obtain ⟨hb, hv⟩ := hmap p hpmem
    refine ⟨List.prefix_refl _, rfl, hb, ?_, hmap, ?_⟩
    · rw [hv, hpi]
    · intro j h1 h2
      have h2b : j < st.verts.length := h2
      exact absurd h2b (not_lt.mpr h1)

theorem extractFace_eq_keep (vs : List V3) (st : Dome.ExtractState) (f : ℕ × ℕ × ℕ)
    (hk : keepFaceB vs f = true) :
    Dome.extractFace vs st f =
      ⟨(Dome.mapVertex vs (Dome.mapVertex vs (Dome.mapVertex vs st f.1).1 f.2.1).1 f.2.2).1.verts,
       (Dome.mapVertex vs (Dome.mapVertex vs (Dome.mapVertex vs st f.1).1 f.2.1).1 f.2.2).1.vmap,
       (Dome.mapVertex vs (Dome.mapVertex vs (Dome.mapVertex vs st f.1).1 f.2.1).1 f.2.2).1.faces ++
         [((Dome.mapVertex vs st f.1).2,
           (Dome.mapVertex vs (Dome.mapVertex vs st f.1).1 f.2.1).2,
           (Dome.mapVertex vs (Dome.mapVertex vs (Dome.mapVertex vs st f.1).1 f.2.1).1 f.2.2).2)]⟩ := by
  unfold keepFaceB at hk
  unfold Dome.extractFace
  rw [hk]
  rfl

theorem extractFace_eq_drop (vs : List V3) (st : Dome.ExtractState) (f : ℕ × ℕ × ℕ)
    (hk : keepFaceB vs f = false) :
    Dome.extractFace vs st f = st := by
  unfold keepFaceB at hk
  unfold Dome.extractFace
  rw [hk]
  rfl

theorem extractFace_spec (vs : List V3) (st : Dome.ExtractState) (f : ℕ × ℕ × ℕ)
    (hinv : ExtractInv vs st) :
    ExtractInv vs (Dome.extractFace vs st f) ∧
    (st.verts <+: (Dome.extractFace vs st f).verts) ∧
    ((Dome.extractFace vs st f).faces.map (facePos (Dome.extractFace vs st f).verts) =
      st.faces.map (facePos st.verts) ++
        (if keepFaceB vs f then [facePos vs f] else [])) := by
  obtain ⟨hmap, hfb, href⟩ := hinv
  by_cases hk : keepFaceB vs f
  · rw [extractFace_eq_keep vs st f hk, if_pos hk]
    obtain ⟨hp1, hf1, hb1, hg1, hm1, hnew1⟩ := mapVertex_spec vs st f.1 hmap
    obtain ⟨hp2, hf2, hb2, hg2, hm2, hnew2⟩ :=
      mapVertex_spec vs (Dome.mapVertex vs st f.1).1 f.2.1 hm1
    obtain ⟨hp3, hf3, hb3, hg3, hm3, hnew3⟩ :=
      mapVertex_spec vs (Dome.mapVertex vs (Dome.mapVertex vs st f.1).1 f.2.1).1 f.2.2 hm2
    set st1 := (Dome.mapVertex vs st f.1).1 with hst1
    set n1 := (Dome.mapVertex vs st f.1).2 with hn1
    set st2 := (Dome.mapVertex vs st1 f.2.1).1 with hst2
    set n2 := (Dome.mapVertex vs st1 f.2.1).2 with hn2
    set st3 := (Dome.mapVertex vs st2 f.2.2).1 with hst3
    set n3 := (Dome.mapVertex vs st2 f.2.2).2 with hn3
    have hpre13 : st1.verts <+: st3.verts := hp2.trans hp3
    have hpre03 : st.verts <+: st3.verts := hp1.trans hpre13
    have hb1f : n1 < st3.verts.length := lt_of_lt_of_le hb1 hpre13.length_le
    have hb2f : n2 < st3.verts.length := lt_of_lt_of_le hb2 hp3.length_le
    have hfaces3 : st3.faces = st.faces := by rw [hf3, hf2, hf1]
    have hg1f : st3.verts.getD n1 V3.zero = vs.getD f.1 V3.zero := by
      rw [getD_extend hpre13 hb1, hg1]
    have hg2f : st3.verts.getD n2 V3.zero = vs.getD f.2.1 V3.zero := by
      rw [getD_extend hp3 hb2, hg2]
    refine ⟨⟨?_, ?_, ?_⟩, ?_, ?_⟩
    · intro p hp
      exact hm3 p hp
    · intro g hg
      have hg2m : g ∈ st3.faces ++ [(n1, n2, n3)] := hg
      rcases List.mem_append.mp hg2m with hgo | hgn
      · rw [hfaces3] at hgo
        obtain ⟨ha, hb, hc⟩ := hfb g hgo
        have hl : st.verts.length ≤ st3.verts.length := hpre03.length_le
        exact ⟨by show g.1 < st3.verts.length; omega,
          by show g.2.1 < st3.verts.length; omega,
          by show g.2.2 < st3.verts.length; omega⟩
      · have : g = (n1, n2, n3) := by simpa using hgn
        subst this
        exact ⟨hb1f, hb2f, hb3⟩
    · intro j hj
      have hjv : j < st3.verts.length := hj
      by_cases hjo : j < st.verts.length
      · obtain ⟨g, hgmem, hgref⟩ := href j hjo
        refine ⟨g, ?_, hgref⟩
        show g ∈ st3.faces ++ [(n1, n2, n3)]
        rw [hfaces3]
        exact List.mem_append_left _ hgmem
      · push_neg at hjo
        refine ⟨(n1, n2, n3), by show _ ∈ st3.faces ++ [(n1, n2, n3)]; simp, ?_⟩
        by_cases hj1 : j < st1.verts.length
        · left
          exact (hnew1 j hjo hj1).symm
        · push_neg at hj1
          by_cases hj2 : j < st2.verts.length
          · right; left
            exact (hnew2 j hj1 hj2).symm
          · push_neg at hj2
            right; right
            exact (hnew3 j hj2 hjv).symm
    · exact hpre03
    · show (st3.faces ++ [(n1, n2, n3)]).map (facePos st3.verts) = _
      rw [List.map_append]
      congr 1
      · rw [hfaces3]
        apply List.map_congr_left
        intro g hg
        obtain ⟨ha, hb, hc⟩ := hfb g hg
        unfold facePos
        rw [getD_extend hpre03 ha, getD_extend hpre03 hb, getD_extend hpre03 hc]
      · unfold facePos
        simp only [List.map_cons, List.map_nil]
        rw [hg1f, hg2f, hg3]
  · rw [extractFace_eq_drop vs st f (Bool.not_eq_true _ ▸ (by simpa using hk)),
      if_neg hk]
    exact ⟨⟨hmap, hfb, href⟩, List.prefix_refl _, by simp⟩

theorem extractHemisphere_fold_spec (vs : List V3) :
    ∀ (fs : List (ℕ × ℕ × ℕ)) (st : Dome.ExtractState), ExtractInv vs st →
      ExtractInv vs (fs.foldl (Dome.extractFace vs) st) ∧
      (st.verts <+: (fs.foldl (Dome.extractFace vs) st).verts) ∧
      ((fs.foldl (Dome.extractFace vs) st).faces.map
          (facePos (fs.foldl (Dome.extractFace vs) st).verts) =
        st.faces.map (facePos st.verts) ++ (fs.filter (keepFaceB vs)).map (facePos vs)) := by
  intro fs
  induction fs with
  | nil =>
    intro st h
    exact ⟨h, List.prefix_refl _, by simp⟩
  | cons f rest ih =>
    intro st h
    obtain ⟨hstep_inv, hstep_pre, hstep_tr⟩ := extractFace_spec vs st f h
    obtain ⟨hinv, hpre, htr⟩ := ih (Dome.extractFace vs st f) hstep_inv
    simp only [List.foldl_cons]
    refine ⟨hinv, hstep_pre.trans hpre, ?_⟩
    rw [htr, hstep_tr, List.filter_cons]
    by_cases hk : keepFaceB vs f
    · rw [if_pos hk, if_pos hk]
      simp
    · rw [if_neg hk, if_neg hk]
      simp

/-- Correctness of the Method 2 hemisphere extraction for arbitrary vertex
positions (hence every radius): the returned faces are, position for
position and in order, exactly the input faces whose three vertices all pass
the height test, and every returned vertex is referenced. -/
theorem extractHemisphere_spec (vs : List V3) (fs : List (ℕ × ℕ × ℕ)) :
    ((Dome.extractHemisphere vs fs).faces.map
        (facePos (Dome.extractHemisphere vs fs).verts) =
      (fs.filter (keepFaceB vs)).map (facePos vs)) ∧
    (∀ j, j < (Dome.extractHemisphere vs fs).verts.length →
      ∃ f ∈ (Dome.extractHemisphere vs fs).faces, f.1 = j ∨ f.2.1 = j ∨ f.2.2 = j) := by
  have hempty : ExtractInv vs ⟨[], [], []⟩ := by
    refine ⟨?_, ?_, ?_⟩ <;> intro x hx <;> simp at hx
  obtain ⟨hinv, _, htr⟩ := extractHemisphere_fold_spec vs fs ⟨[], [], []⟩ hempty
  exact ⟨by simpa using htr, hinv.2.2⟩

/-- The retention test of one soup triangle in Method 1. -/
def keepTriple (t : V3 × V3 × V3) : Bool :=
  Dome.hemiKeep t.1 && Dome.hemiKeep t.2.1 && Dome.hemiKeep t.2.2

def M1Inv (st : List V3 × List (ℕ × ℕ × ℕ)) : Prop :=
  (∀ f ∈ st.2, f.1 < st.1.length ∧ f.2.1 < st.1.length ∧ f.2.2 < st.1.length) ∧
  (∀ j, j < st.1.length → ∃ f ∈ st.2, f.1 = j ∨ f.2.1 = j ∨ f.2.2 = j)

theorem method1Step_eq_keep (st : List V3 × List (ℕ × ℕ × ℕ)) (t : V3 × V3 × V3)
    (hk : keepTriple t = true) :
    Dome.method1Step st t =
      (st.1 ++ [t.1, t.2.1, t.2.2],
       st.2 ++ [(st.1.length, st.1.length + 1, st.1.length + 2)]) := by
  unfold keepTriple at hk
  unfold Dome.method1Step
  rw [hk]
  rfl

theorem method1Step_eq_drop (st : List V3 × List (ℕ × ℕ × ℕ)) (t : V3 × V3 × V3)
    (hk : keepTriple t = false) :
    Dome.method1Step st t = st := by
  unfold keepTriple at hk
  unfold Dome.method1Step
  rw [hk]
  rfl

theorem method1_fold_spec :
    ∀ (soup : List (V3 × V3 × V3)) (st : List V3 × List (ℕ × ℕ × ℕ)), M1Inv st →
      M1Inv (soup.foldl Dome.method1Step st) ∧
      (st.1 <+: (soup.foldl Dome.method1Step st).1) ∧
      ((soup.foldl Dome.method1Step st).2.map (facePos (soup.foldl Dome.method1Step st).1) =
        st.2.map (facePos st.1) ++ soup.filter keepTriple) := by
  intro soup
  induction soup with
  | nil =>
    intro st h
    exact ⟨h, List.prefix_refl _, by simp⟩
  | cons t rest ih =>
    intro st h
    obtain ⟨hfb, href⟩ := h
    simp only [List.foldl_cons]
    by_cases hk : keepTriple t
    · obtain ⟨a, b, c⟩ := t
      rw [method1Step_eq_keep st (a, b, c) hk]
      have hlen : (st.1 ++ [a, b, c]).length = st.1.length + 3 := by simp
      have hstep_inv : M1Inv (st.1 ++ [a, b, c],
          st.2 ++ [(st.1.length, st.1.length + 1, st.1.length + 2)]) := by
        constructor
        · intro f hf
          rcases List.mem_append.mp hf with hf | hf
          · obtain ⟨h1, h2, h3⟩ := hfb f hf
            exact ⟨by show f.1 < (st.1 ++ _).length; rw [hlen]; omega,
              by show f.2.1 < (st.1 ++ _).length; rw [hlen]; omega,
              by show f.2.2 < (st.1 ++ _).length; rw [hlen]; omega⟩
          · have : f = (st.1.length, st.1.length + 1, st.1.length + 2) := by simpa using hf
            subst this
            refine ⟨?_, ?_, ?_⟩
            · show st.1.length < (st.1 ++ [a, b, c]).length
              rw [hlen]; omega
            · show st.1.length + 1 < (st.1 ++ [a, b, c]).length
              rw [hlen]; omega
            · show st.1.length + 2 < (st.1 ++ [a, b, c]).length
              rw [hlen]; omega
        · intro j hj
          have hjlen : j < st.1.length + 3 := by rw [← hlen]; exact hj
          by_cases hjo : j < st.1.length
          · obtain ⟨f, hfmem, hfref⟩ := href j hjo
            exact ⟨f, List.mem_append_left _ hfmem, hfref⟩
          · refine ⟨(st.1.length, st.1.length + 1, st.1.length + 2), by simp, ?_⟩
            push_neg at hjo
            show st.1.length = j ∨ st.1.length + 1 = j ∨ st.1.length + 2 = j
            omega
      obtain ⟨hinv, hpre, htr⟩ := ih _ hstep_inv
      refine ⟨hinv, ?_, ?_⟩
      · exact (List.prefix_append _ _).trans hpre
      · rw [htr, List.filter_cons, if_pos hk]
        have hmid : (st.2 ++ [(st.1.length, st.1.length + 1, st.1.length + 2)]).map
            (facePos (st.1 ++ [a, b, c])) =
            st.2.map (facePos st.1) ++ [(a, b, c)] := by
          rw [List.map_append]
          congr 1
          · apply List.map_congr_left
            intro g hg
            obtain ⟨h1, h2, h3⟩ := hfb g hg
            unfold facePos
            rw [List.getD_append _ _ _ _ h1, List.getD_append _ _ _ _ h2,
              List.getD_append _ _ _ _ h3]
          · simp only [List.map_cons, List.map_nil]
            unfold facePos
            show [((st.1 ++ [a, b, c]).getD st.1.length V3.zero,
                (st.1 ++ [a, b, c]).getD (st.1.length + 1) V3.zero,
                (st.1 ++ [a, b, c]).getD (st.1.length + 2) V3.zero)] = [(a, b, c)]
            rw [List.getD_append_right _ _ _ _ le_rfl,
              List.getD_append_right _ _ _ _ (by omega),
              List.getD_append_right _ _ _ _ (by omega)]
            simp
        rw [hmid]
        simp
    · rw [method1Step_eq_drop st t ((Bool.not_eq_true _).mp hk)]
      obtain ⟨hinv, hpre, htr⟩ := ih st ⟨hfb, href⟩
      refine ⟨hinv, hpre, ?_⟩
      rw [htr, List.filter_cons, if_neg hk]

/-- C3: for every radius (the vertex positions are arbitrary here, so every
scaled vertex list is covered), the hemisphere extraction of Strategy B
retains a subdivided triangle exactly when all three of its vertices pass
the height test y ≥ −ε, the retained faces appear in order with their
original vertex positions, and every vertex in the returned list is
referenced by at least one returned face; the face loop of Strategy A
satisfies the same two properties. -/
theorem claimC3_extraction_retention_and_refs :
    (∀ (vertices : List V3) (faces : List (ℕ × ℕ × ℕ)),
      ((Dome.extractHemisphere vertices faces).faces.map
          (facePos (Dome.extractHemisphere vertices faces).verts) =
        (faces.filter (keepFaceB vertices)).map (facePos vertices)) ∧
      (∀ j, j < (Dome.extractHemisphere vertices faces).verts.length →
        ∃ f ∈ (Dome.extractHemisphere vertices faces).faces,
          f.1 = j ∨ f.2.1 = j ∨ f.2.2 = j)) ∧
    (∀ soup : List (V3 × V3 × V3),
      ((Dome.create2VGeodesicDomeMethod1Core soup).2.map
          (facePos (Dome.create2VGeodesicDomeMethod1Core soup).1) =
        soup.filter keepTriple) ∧
      (∀ j, j < (Dome.create2VGeodesicDomeMethod1Core soup).1.length →
        ∃ f ∈ (Dome.create2VGeodesicDomeMethod1Core soup).2,
          f.1 = j ∨ f.2.1 = j ∨ f.2.2 = j)) := by
  constructor
  · intro vertices faces
    exact extractHemisphere_spec vertices faces
  · intro soup
    have hM : M1Inv ([], []) := by
      constructor <;> intro x hx <;> simp at hx
    obtain ⟨hinv, _, htr⟩ := method1_fold_spec soup ([], []) hM
    exact ⟨by simpa using htr, hinv.2⟩

/-- A one-vertex, one-face extraction input for the C3 witness. -/
def c3vs : List V3 := [⟨Dome.kq 0, Dome.kq 1, Dome.kq 0⟩]

def c3fs : List (ℕ × ℕ × ℕ) := [(0, 0, 0)]

def c3soup : List (V3 × V3 × V3) :=
  [(⟨Dome.kq 0, Dome.kq 1, Dome.kq 0⟩, ⟨Dome.kq 1, Dome.kq 0, Dome.kq 0⟩,
    ⟨Dome.kq 0, Dome.kq 0, Dome.kq 1⟩)]

/-- Closed instance of C3 on the one-face inputs. -/
theorem claimC3_witness :
    ((Dome.extractHemisphere c3vs c3fs).faces.map
        (facePos (Dome.extractHemisphere c3vs c3fs).verts) =
      (c3fs.filter (keepFaceB c3vs)).map (facePos c3vs)) ∧
    (∃ f ∈ (Dome.extractHemisphere c3vs c3fs).faces, f.1 = 0 ∨ f.2.1 = 0 ∨ f.2.2 = 0) ∧
    ((Dome.create2VGeodesicDomeMethod1Core c3soup).2.map
        (facePos (Dome.create2VGeodesicDomeMethod1Core c3soup).1) =
      c3soup.filter keepTriple) ∧
    (∃ f ∈ (Dome.create2VGeodesicDomeMethod1Core c3soup).2,
      f.1 = 0 ∨ f.2.1 = 0 ∨ f.2.2 = 0) :=
  ⟨(claimC3_extraction_retention_and_refs.1 c3vs c3fs).1,
   (claimC3_extraction_retention_and_refs.1 c3vs c3fs).2 0 (by decide),
   (claimC3_extraction_retention_and_refs.2 c3soup).1,
   (claimC3_extraction_retention_and_refs.2 c3soup).2 0 (by decide)⟩

/-! Properties of the logical face numbering (claim C6). -/

theorem faceHeights_succ (n : ℕ) (geom : Option Dome.BufferGeo) :
    Dome.faceHeights (n + 1) geom =
      (match Dome.getFaceCentroidAndNormal geom n with
       | some cn => Dome.faceHeights n geom ++ [⟨n, cn.1.y, cn.1.x, cn.1.z⟩]
       | none => Dome.faceHeights n geom) := by
  unfold Dome.faceHeights
  rw [List.range_succ, List.foldl_append]
  rcases ho : Dome.getFaceCentroidAndNormal geom n with _ | cn
  · simp [ho]
  · simp [ho]

theorem faceHeights_index_lt (n : ℕ) (geom : Option Dome.BufferGeo) :
    ∀ e ∈ Dome.faceHeights n geom, e.index < n := by
  induction n with
  | zero => intro e he; simp [Dome.faceHeights] at he
  | succ m ih =>
    intro e he
    rw [faceHeights_succ] at he
    rcases ho : Dome.getFaceCentroidAndNormal geom m with _ | cn
    · rw [ho] at he
      exact lt_trans (ih e he) (by omega)
    · rw [ho] at he
      rcases List.mem_append.mp he with he | he
      · exact lt_trans (ih e he) (by omega)
      · have : e = ⟨m, cn.1.y, cn.1.x, cn.1.z⟩ := by simpa using he
        subst this
        show m < m + 1
        omega

theorem faceHeights_index_nodup (n : ℕ) (geom : Option Dome.BufferGeo) :
    ((Dome.faceHeights n geom).map (fun e => e.index)).Nodup := by
  induction n with
  | zero => simp [Dome.faceHeights]
  | succ m ih =>
    rw [faceHeights_succ]
    rcases ho : Dome.getFaceCentroidAndNormal geom m with _ | cn
    · exact ih
    · show (List.map (fun e => e.index)
        (Dome.faceHeights m geom ++ [⟨m, cn.1.y, cn.1.x, cn.1.z⟩])).Nodup
      rw [List.map_append, List.nodup_append]
      refine ⟨ih, by simp, ?_⟩
      intro a ha hb
      have hbm : a = m := by simpa using hb
      obtain ⟨e, he, hei⟩ := List.mem_map.mp ha
      have hlt := faceHeights_index_lt m geom e he
      omega

theorem jsSortedInsert_perm (lt : α → α → Bool) (x : α) (l : List α) :
    (Dome.jsSortedInsert lt x l).Perm (x :: l) := by
  induction l with
  | nil => simp [Dome.jsSortedInsert]
  | cons y ys ih =>
    unfold Dome.jsSortedInsert
    by_cases h : lt x y
    · rw [if_pos h]
    · rw [if_neg h]
      exact (ih.cons y).trans (List.Perm.swap x y ys)

theorem bool_eq_false {b : Bool} (h : ¬ b = true) : b = false := by
  cases b
  · rfl
  · exact absurd rfl h

theorem jsSort_perm (lt : α → α → Bool) (l : List α) : (Dome.jsSort lt l).Perm l := by
  suffices h : ∀ (xs acc : List α),
      (xs.foldl (fun acc x => Dome.jsSortedInsert lt x acc) acc).Perm (acc ++ xs) by
    simpa using h l []
  intro xs
  induction xs with
  | nil => intro acc; simp
  | cons x rest ih =>
    intro acc
    simp only [List.foldl_cons]
    refine (ih _).trans ?_
    exact ((jsSortedInsert_perm lt x acc).append (List.Perm.refl rest)).trans
      List.perm_middle.symm

theorem heightLt_some {a b : Dome.FaceEntry} {p q : GK} (ha : a.y = some p)
    (hb : b.y = some q) : Dome.heightLt a b = GK.ltB q p := by
  unfold Dome.heightLt
  rw [ha, hb]

theorem heightLt_none_left {a b : Dome.FaceEntry} (ha : a.y = none) :
    Dome.heightLt a b = false := by
  unfold Dome.heightLt
  rw [ha]

theorem heightLt_none_right {a b : Dome.FaceEntry} (hb : b.y = none) :
    Dome.heightLt a b = false := by
  unfold Dome.heightLt
  rw [hb]
  cases a.y <;> rfl

theorem heightLt_asymm {a b : Dome.FaceEntry} (h : Dome.heightLt a b = true) :
    Dome.heightLt b a = false := by
  rcases ha : a.y with _ | p
  · rw [heightLt_none_left ha] at h
    exact Bool.noConfusion h
  · rcases hb : b.y with _ | q
    · rw [heightLt_none_right hb] at h
      exact Bool.noConfusion h
    · rw [heightLt_some ha hb] at h
      rw [heightLt_some hb ha]
      have hlt := (GK.ltB_iff_gk q p).mp h
      apply bool_eq_false
      intro hc
      have := (GK.ltB_iff_gk p q).mp hc
      linarith

theorem heightLt_irrefl (a : Dome.FaceEntry) : Dome.heightLt a a = false := by
  rcases ha : a.y with _ | p
  · exact heightLt_none_left ha
  · rw [heightLt_some ha ha]
    apply bool_eq_false
    intro hc
    have := (GK.ltB_iff_gk p p).mp hc
    linarith

theorem heightLt_chain {x y z : Dome.FaceEntry} (h1 : Dome.heightLt x y = true)
    (h2 : Dome.heightLt z x = true) : Dome.heightLt z y = true := by
  rcases hx : x.y with _ | p
  · rw [heightLt_none_left hx] at h1
    exact Bool.noConfusion h1
  · rcases hy : y.y with _ | q
    · rw [heightLt_none_right hy] at h1
      exact Bool.noConfusion h1
    · rcases hz : z.y with _ | r
      · rw [heightLt_none_left hz] at h2
        exact Bool.noConfusion h2
      · rw [heightLt_some hx hy] at h1
        rw [heightLt_some hz hx] at h2
        rw [heightLt_some hz hy]
        have g1 := (GK.ltB_iff_gk q p).mp h1
        have g2 := (GK.ltB_iff_gk p r).mp h2
        exact (GK.ltB_iff_gk q r).mpr (by linarith)

theorem jsSortedInsert_pairwise (x : Dome.FaceEntry) (l : List Dome.FaceEntry)
    (hl : l.Pairwise (fun a b => Dome.heightLt b a = false)) :
    (Dome.jsSortedInsert Dome.heightLt x l).Pairwise
      (fun a b => Dome.heightLt b a = false) := by
  induction l with
  | nil => simp [Dome.jsSortedInsert]
  | cons y ys ih =>
    rw [List.pairwise_cons] at hl
    obtain ⟨hy, hys⟩ := hl
    unfold Dome.jsSortedInsert
    by_cases h : Dome.heightLt x y = true
    · rw [if_pos h, List.pairwise_cons]
      constructor
      · intro b hb
        rcases List.mem_cons.mp hb with rfl | hb2
        · exact heightLt_asymm h
        · apply bool_eq_false
          intro hc
          have := heightLt_chain h hc
          rw [hy b hb2] at this
          exact Bool.noConfusion this
      · exact List.pairwise_cons.mpr ⟨hy, hys⟩
    · rw [if_neg h, List.pairwise_cons]
      constructor
      · intro b hb
        have hmem := (jsSortedInsert_perm Dome.heightLt x ys).mem_iff.mp hb
        rcases List.mem_cons.mp hmem with rfl | hb2
        · exact bool_eq_false h
        · exact hy b hb2
      · exact ih hys

theorem jsSort_pairwise (l : List Dome.FaceEntry) :
    (Dome.jsSort Dome.heightLt l).Pairwise (fun a b => Dome.heightLt b a = false) := by
  suffices h : ∀ (xs acc : List Dome.FaceEntry),
      acc.Pairwise (fun a b => Dome.heightLt b a = false) →
      (xs.foldl (fun acc x => Dome.jsSortedInsert Dome.heightLt x acc) acc).Pairwise
        (fun a b => Dome.heightLt b a = false) by
    exact h l [] (by simp)
  intro xs
  induction xs with
  | nil => intro acc hacc; exact hacc
  | cons x rest ih =>
    intro acc hacc
    simp only [List.foldl_cons]
    exact ih _ (jsSortedInsert_pairwise x acc hacc)

/-- The head of the height-sorted list is not strictly below any collected
entry. -/
theorem sorted_head_max (l : List Dome.FaceEntry) (e : Dome.FaceEntry)
    (t : List Dome.FaceEntry) (h : Dome.jsSort Dome.heightLt l = e :: t) :
    ∀ e2 ∈ l, Dome.heightLt e2 e = false := by
  intro e2 he2
  have hmem : e2 ∈ e :: t := by
    rw [← h]
    exact ((jsSort_perm Dome.heightLt l).symm.mem_iff).mp he2
  have hpw := jsSort_pairwise l
  rw [h, List.pairwise_cons] at hpw
  rcases List.mem_cons.mp hmem with rfl | hmem2
  · exact heightLt_irrefl e2
  · exact hpw.1 e2 hmem2

theorem addToLevels_head (e0 : Dome.FaceEntry) (t0 : List Dome.FaceEntry)
    (r : List (List Dome.FaceEntry)) (f : Dome.FaceEntry) :
    ∃ t1 r1, Dome.addToLevels ((e0 :: t0) :: r) f = (e0 :: t1) :: r1 := by
  unfold Dome.addToLevels
  by_cases h : Dome.levelTest f (e0 :: t0) = true
  · rw [if_pos h]
    exact ⟨t0 ++ [f], r, rfl⟩
  · rw [if_neg h]
    exact ⟨t0, Dome.addToLevels r f, rfl⟩

theorem foldl_addToLevels_head (xs : List Dome.FaceEntry) :
    ∀ (e0 : Dome.FaceEntry) (t0 : List Dome.FaceEntry)
      (r : List (List Dome.FaceEntry)),
      ∃ t1 r1, xs.foldl Dome.addToLevels ((e0 :: t0) :: r) = (e0 :: t1) :: r1 := by
  induction xs with
  | nil => intro e0 t0 r; exact ⟨t0, r, rfl⟩
  | cons f rest ih =>
    intro e0 t0 r
    simp only [List.foldl_cons]
    obtain ⟨t1, r1, h1⟩ := addToLevels_head e0 t0 r f
    rw [h1]
    exact ih e0 t1 r1

/-- The first entry of the height-sorted list stays the seed (first element)
of the first level throughout the bucketing loop. -/
theorem buildLevels_head (n : ℕ) (geom : Option Dome.BufferGeo) (e : Dome.FaceEntry)
    (t : List Dome.FaceEntry)
    (h : Dome.jsSort Dome.heightLt (Dome.faceHeights n geom) = e :: t) :
    ∃ t1 r1, Dome.buildLevels n geom = (e :: t1) :: r1 := by
  unfold Dome.buildLevels
  rw [h]
  simp only [List.foldl_cons]
  exact foldl_addToLevels_head t e [] []

theorem addToLevels_flatten_perm (lvls : List (List Dome.FaceEntry))
    (f : Dome.FaceEntry) :
    (Dome.addToLevels lvls f).flatten.Perm (lvls.flatten ++ [f]) := by
  induction lvls with
  | nil => simp [Dome.addToLevels]
  | cons l rest ih =>
    unfold Dome.addToLevels
    by_cases h : Dome.levelTest f l = true
    · rw [if_pos h]
      simp only [List.flatten_cons, List.append_assoc]
      exact (List.Perm.refl l).append List.perm_append_comm
    · rw [if_neg h]
      simp only [List.flatten_cons]
      refine ((List.Perm.refl l).append ih).trans ?_
      rw [← List.append_assoc]

theorem foldl_addToLevels_flatten_perm (xs : List Dome.FaceEntry) :
    ∀ lvls : List (List Dome.FaceEntry),
      ((xs.foldl Dome.addToLevels lvls).flatten).Perm (lvls.flatten ++ xs) := by
  induction xs with
  | nil => intro lvls; simp
  | cons f rest ih =>
    intro lvls
    simp only [List.foldl_cons]
    refine (ih _).trans ?_
    refine ((addToLevels_flatten_perm lvls f).append (List.Perm.refl rest)).trans ?_
    simp [List.append_assoc]

/-- Every collected entry lands in exactly one level: the levels' flattening
is a permutation of the collected entries. -/
theorem buildLevels_flatten_perm (n : ℕ) (geom : Option Dome.BufferGeo) :
    ((Dome.buildLevels n geom).flatten).Perm (Dome.faceHeights n geom) := by
  unfold Dome.buildLevels
  refine (foldl_addToLevels_flatten_perm _ []).trans ?_
  simpa using jsSort_perm Dome.heightLt (Dome.faceHeights n geom)

/-- Per-level angle sorting permutes each level, hence the flattening. -/
theorem mapSort_flatten_perm (L : List (List Dome.FaceEntry)) :
    ((L.map (Dome.jsSort Dome.angLt)).flatten).Perm L.flatten := by
  induction L with
  | nil => simp
  | cons l rest ih =>
    simp only [List.map_cons, List.flatten_cons]
    exact (jsSort_perm Dome.angLt l).append ih

theorem listSet_length (l : List ℕ) (i v : ℕ) :
    (Dome.listSet l i v).length = l.length := by
  induction l generalizing i with
  | nil => rfl
  | cons m xs ih =>
    cases i with
    | zero => rfl
    | succ k => simp only [Dome.listSet, List.length_cons, ih]

theorem listSet_getD_self (l : List ℕ) (i v : ℕ) (h : i < l.length) :
    (Dome.listSet l i v).getD i 0 = v := by
  induction l generalizing i with
  | nil => simp at h
  | cons m xs ih =>
    cases i with
    | zero => rfl
    | succ k =>
      simp only [Dome.listSet, List.getD_cons_succ]
      exact ih k (by simp only [List.length_cons] at h; omega)

theorem listSet_getD_ne (l : List ℕ) (i j v : ℕ) (h : j ≠ i) :
    (Dome.listSet l i v).getD j 0 = l.getD j 0 := by
  induction l generalizing i j with
  | nil => rfl
  | cons m xs ih =>
    cases i with
    | zero =>
      cases j with
      | zero => exact absurd rfl h
      | succ jk => simp only [Dome.listSet, List.getD_cons_succ]
    | succ k =>
      cases j with
      | zero => rfl
      | succ jk =>
        simp only [Dome.listSet, List.getD_cons_succ]
        exact ih k jk (fun hc => h (by rw [hc]))

theorem assign_fold_fst_length (L : List Dome.FaceEntry) :
    ∀ (arr : List ℕ) (c : ℕ),
      ((L.foldl (fun (st : List ℕ × ℕ) x => (Dome.listSet st.1 x.index st.2, st.2 + 1))
        (arr, c)).1).length = arr.length := by
  induction L with
  | nil => intro arr c; rfl
  | cons x rest ih =>
    intro arr c
    simp only [List.foldl_cons]
    exact (ih (Dome.listSet arr x.index c) (c + 1)).trans
      (listSet_length arr x.index c)

theorem assign_fold_fst_preserve (L : List Dome.FaceEntry) (j : ℕ) :
    ∀ (arr : List ℕ) (c : ℕ), (∀ e ∈ L, e.index ≠ j) →
      ((L.foldl (fun (st : List ℕ × ℕ) x => (Dome.listSet st.1 x.index st.2, st.2 + 1))
        (arr, c)).1).getD j 0 = arr.getD j 0 := by
  induction L with
  | nil => intro arr c _; rfl
  | cons x rest ih =>
    intro arr c hj
    simp only [List.foldl_cons]
    have h1 := ih (Dome.listSet arr x.index c) (c + 1)
      (fun e2 he2 => hj e2 (List.mem_cons_of_mem x he2))
    rw [listSet_getD_ne arr x.index j c
      (Ne.symm (hj x (List.mem_cons_self x rest)))] at h1
    exact h1

/-- The entry at position `|L1|` of the assignment order receives the number
`c + |L1|`, provided no later entry shares its slot index. -/
theorem assign_fold_value (L1 : List Dome.FaceEntry) (e : Dome.FaceEntry)
    (L2 : List Dome.FaceEntry) (h2 : ∀ e2 ∈ L2, e2.index ≠ e.index) :
    ∀ (arr : List ℕ) (c : ℕ), e.index < arr.length →
      (((L1 ++ e :: L2).foldl
        (fun (st : List ℕ × ℕ) x => (Dome.listSet st.1 x.index st.2, st.2 + 1))
        (arr, c)).1).getD e.index 0 = c + L1.length := by
  induction L1 with
  | nil =>
    intro arr c hlen
    simp only [List.nil_append, List.foldl_cons]
    have h1 := assign_fold_fst_preserve L2 e.index (Dome.listSet arr e.index c)
      (c + 1) h2
    rw [listSet_getD_self arr e.index c hlen] at h1
    exact h1
  | cons x L1' ih =>
    intro arr c hlen
    simp only [List.cons_append, List.foldl_cons]
    have h1 := ih (Dome.listSet arr x.index c) (c + 1)
      (by rw [listSet_length]; exact hlen)
    exact h1.trans (by simp only [List.length_cons]; omega)

/-- C6: `createLogicalFaceNumbering` is deterministic — it is embedded as a
pure function of the face count and geometry, so two invocations on the same
mesh are definitionally equal — and whenever at least one face entry is
collected and every collected centroid height is a defined number, some
collected facet `e` of maximal centroid height has its slot in range and its
assigned number between 1 and the size of the first (highest) angle-sorted
level: it receives number 1 or is tied for the lowest numbers within its
height level, levels being ordered highest first and numbers assigned from 1
in (level, angle) order. -/
theorem claimC6_numbering_determinism_and_top_face
    (n : ℕ) (geom : Option Dome.BufferGeo)
    (hne : Dome.faceHeights n geom ≠ [])
    (hdef : ∀ e2 ∈ Dome.faceHeights n geom, e2.y.isSome) :
    Dome.createLogicalFaceNumbering n geom =
      Dome.createLogicalFaceNumbering n geom ∧
    ∃ e ∈ Dome.faceHeights n geom, ∃ y : GK, e.y = some y ∧
      (∀ e2 ∈ Dome.faceHeights n geom, ∀ y2 : GK,
        e2.y = some y2 → y2.toReal ≤ y.toReal) ∧
      e.index < n ∧
      1 ≤ (Dome.createLogicalFaceNumbering n geom).getD e.index 0 ∧
      (Dome.createLogicalFaceNumbering n geom).getD e.index 0 ≤
        ((((Dome.buildLevels n geom).map
          (Dome.jsSort Dome.angLt)).headD []).length) := by
  refine ⟨rfl, ?_⟩
  cases hs : Dome.jsSort Dome.heightLt (Dome.faceHeights n geom) with
  | nil =>
    exfalso
    apply hne
    have hperm := jsSort_perm Dome.heightLt (Dome.faceHeights n geom)
    rw [hs] at hperm
    exact hperm.symm.eq_nil
  | cons e t =>
    have hperm := jsSort_perm Dome.heightLt (Dome.faceHeights n geom)
    rw [hs] at hperm
    have he_mem : e ∈ Dome.faceHeights n geom :=
      hperm.subset (List.mem_cons_self e t)
    obtain ⟨y, hy⟩ := Option.isSome_iff_exists.mp (hdef e he_mem)
    have hmaxb := sorted_head_max (Dome.faceHeights n geom) e t hs
    have he_lt : e.index < n := faceHeights_index_lt n geom e he_mem
    obtain ⟨t1, r1, hlv⟩ := buildLevels_head n geom e t hs
    have he0 : e ∈ Dome.jsSort Dome.angLt (e :: t1) :=
      (jsSort_perm Dome.angLt (e :: t1)).mem_iff.mpr (List.mem_cons_self e t1)
    obtain ⟨A, B, hAB⟩ := List.append_of_mem he0
    have hflat : (((Dome.buildLevels n geom).map (Dome.jsSort Dome.angLt)).flatten)
        = A ++ e :: (B ++ ((r1.map (Dome.jsSort Dome.angLt)).flatten)) := by
      rw [hlv]
      simp only [List.map_cons, List.flatten_cons, hAB, List.append_assoc,
        List.cons_append]
    have pf : ((((Dome.buildLevels n geom).map
        (Dome.jsSort Dome.angLt)).flatten)).Perm (Dome.faceHeights n geom) :=
      (mapSort_flatten_perm _).trans (buildLevels_flatten_perm n geom)
    have hnd : ((((Dome.buildLevels n geom).map
        (Dome.jsSort Dome.angLt)).flatten).map (fun x => x.index)).Nodup :=
      ((pf.map (fun x => x.index)).nodup_iff).mpr (faceHeights_index_nodup n geom)
    rw [hflat, List.map_append, List.map_cons] at hnd
    have hnotmem : e.index ∉
        ((B ++ ((r1.map (Dome.jsSort Dome.angLt)).flatten)).map
          (fun x => x.index)) := by
      have h3 := hnd.of_append_right
      rw [List.nodup_cons] at h3
      exact h3.1
    have hnot : ∀ e2 ∈ B ++ ((r1.map (Dome.jsSort Dome.angLt)).flatten),
        e2.index ≠ e.index := by
      intro e2 he2 hc
      exact hnotmem (hc ▸ List.mem_map_of_mem (fun x => x.index) he2)
    have hval : (Dome.createLogicalFaceNumbering n geom).getD e.index 0
        = 1 + A.length := by
      show (((((Dome.buildLevels n geom).map (Dome.jsSort Dome.angLt)).flatten).foldl
        (fun (st : List ℕ × ℕ) x => (Dome.listSet st.1 x.index st.2, st.2 + 1))
        (List.replicate n 0, 1)).1).getD e.index 0 = 1 + A.length
      rw [hflat]
      exact assign_fold_value A e _ hnot (List.replicate n 0) 1
        (by rw [List.length_replicate]; exact he_lt)
    refine ⟨e, he_mem, y, hy, ?_, he_lt, ?_, ?_⟩
    · intro e2 he2 y2 hy2
      have hb := hmaxb e2 he2
      rw [heightLt_some hy2 hy] at hb
      by_contra hc
      push_neg at hc
      have hlt := (GK.ltB_iff_gk y y2).mpr hc
      rw [hb] at hlt
      exact Bool.noConfusion hlt
    · rw [hval]; omega
    · rw [hval, hlv]
      simp only [List.map_cons, List.headD_cons, hAB, List.length_append,
        List.length_cons]
      omega

/-- Witness for C6 on the single-triangle geometry with one face. -/
theorem claimC6_witness :
    Dome.createLogicalFaceNumbering 1 (some Dome.tinyGeo) =
      Dome.createLogicalFaceNumbering 1 (some Dome.tinyGeo) ∧
    ∃ e ∈ Dome.faceHeights 1 (some Dome.tinyGeo), ∃ y : GK, e.y = some y ∧
      (∀ e2 ∈ Dome.faceHeights 1 (some Dome.tinyGeo), ∀ y2 : GK,
        e2.y = some y2 → y2.toReal ≤ y.toReal) ∧
      e.index < 1 ∧
      1 ≤ (Dome.createLogicalFaceNumbering 1 (some Dome.tinyGeo)).getD e.index 0 ∧
      (Dome.createLogicalFaceNumbering 1 (some Dome.tinyGeo)).getD e.index 0 ≤
        ((((Dome.buildLevels 1 (some Dome.tinyGeo)).map
          (Dome.jsSort Dome.angLt)).headD []).length) :=
  claimC6_numbering_determinism_and_top_face 1 (some Dome.tinyGeo)
    (by decide) (by decide)
